import Mathlib

/-!
Verification of the analytic core of the Social-Media-Analytics-Platform
repository.  The data model is a shallow embedding of `src/database/models.py`;
each analyzer function embeds the SQL query executed by the corresponding
method in `src/analytics/*.py`, translated row-by-row:

* tables become lists of records held in a `Snapshot`;
* SQL `JOIN` / `LEFT JOIN` chains become nested `flatMap`s, with `leftJoin`
  supplying the single all-`NULL` row when a left join finds no match;
* `COUNT(DISTINCT e)` becomes `countDistinct` (length of the deduplicated
  projection of the join rows);
* `NULL`-able values become `Option`;
* SQL timestamps become integers (seconds); `INTERVAL n DAYS` is `n * 86400`;
* `NUMERIC` arithmetic is exact rational arithmetic (`ℚ`); `ROUND(x, 2)` is
  `round2` (round half away from zero, as PostgreSQL rounds `numeric`);
* dialect-dependent constructs take their PostgreSQL semantics, the engine
  `src/config.py` is configured for: `STDDEV` is the sample standard
  deviation (`NULL` over a single row), and the bound parameter placed inside
  the interval literal of `get_top_contributors` is substituted by the
  SQLAlchemy/psycopg2 driver stack, so the effective cutoff is
  `now - days * 86400`.
-/

namespace SMAP

/-- Rows of the `users` table (`src/database/models.py`, class `User`). -/
structure UserR where
  user_id : Nat
  username : String
  full_name : String
  email : Option String
  join_date : Int
  is_active : Bool
deriving DecidableEq, Repr

/-- Rows of the `posts` table (`src/database/models.py`, class `Post`). -/
structure PostR where
  post_id : Nat
  user_id : Nat
  post_text : String
  media_url : Option String
  post_time : Int
  is_public : Bool
deriving DecidableEq, Repr

/-- Rows of the `comments` table (`src/database/models.py`, class `Comment`).
`parent_comment_id` is `none` for a top-level comment. -/
structure CommentR where
  comment_id : Nat
  post_id : Nat
  user_id : Nat
  parent_comment_id : Option Nat
  comment_text : String
  comment_time : Int
deriving DecidableEq, Repr

/-- Rows of the `likes` table (`src/database/models.py`, class `Like`).
The check constraint `chk_like_target` demands exactly one of `post_id`,
`comment_id` to be set. -/
structure LikeR where
  like_id : Nat
  post_id : Option Nat
  comment_id : Option Nat
  user_id : Nat
  like_time : Int
deriving DecidableEq, Repr

/-- Rows of the `follows` table (`src/database/models.py`, class `Follow`). -/
structure FollowR where
  follower_id : Nat
  followee_id : Nat
  follow_time : Int
deriving DecidableEq, Repr

/-- A read-only snapshot of the whole database, the input of every analyzer. -/
structure Snapshot where
  users : List UserR
  posts : List PostR
  comments : List CommentR
  likes : List LikeR
  follows : List FollowR
deriving DecidableEq, Repr

/-- SQL `COUNT(DISTINCT e)` over a list of values of `e`. -/
def countDistinct {α : Type} [DecidableEq α] (l : List α) : Nat :=
  l.dedup.length

/-- SQL `LEFT JOIN` row extension: when the matching rows `xs` are empty the
join still yields one row whose right side is `NULL` (`none`). -/
def leftJoin {α : Type} : List α → List (Option α)
  | [] => [none]
  | xs => xs.map some

/-- PostgreSQL `ROUND(q, 2)` on `numeric`: round half away from zero to two
decimal places. -/
def round2 (q : ℚ) : ℚ :=
  if q < 0 then -(⌊-q * 100 + 1/2⌋ : ℤ) / 100 else (⌊q * 100 + 1/2⌋ : ℤ) / 100

/-- SQL `MAX` over the values of a (nonempty) aggregation group. -/
def listMax (l : List Nat) : Nat := l.foldl Nat.max 0

theorem leftJoin_ne_nil {α : Type} (xs : List α) : leftJoin xs ≠ [] := by
  cases xs <;> simp [leftJoin]

theorem mem_leftJoin_some {α : Type} {xs : List α} {x : α} :
    some x ∈ leftJoin xs ↔ x ∈ xs := by
  cases xs <;> simp [leftJoin]

theorem exists_mem_leftJoin {α : Type} (xs : List α) : ∃ y, y ∈ leftJoin xs := by
  cases h : leftJoin xs with
  | nil => exact absurd h (leftJoin_ne_nil xs)
  | cons a t => exact ⟨a, by simp [h]⟩

theorem countDistinct_eq_card_toFinset {α : Type} [DecidableEq α] (l : List α) :
    countDistinct l = l.toFinset.card := by
  simp [countDistinct, List.card_toFinset]

theorem countDistinct_congr {α : Type} [DecidableEq α] {l₁ l₂ : List α}
    (h : l₁.toFinset = l₂.toFinset) : countDistinct l₁ = countDistinct l₂ := by
  rw [countDistinct_eq_card_toFinset, countDistinct_eq_card_toFinset, h]

theorem filter_eq_singleton_of_nodup_key {α : Type} {β : Type} [DecidableEq β]
    (k : α → β) {l : List α} (hnd : (l.map k).Nodup) {x : α} (hx : x ∈ l)
    {i : β} (hk : k x = i) :
    l.filter (fun y => k y = i) = [x] := by
  induction l with
  | nil => cases hx
  | cons a t ih =>
    simp only [List.map_cons, List.nodup_cons] at hnd
    rcases List.mem_cons.mp hx with rfl | hxt
    · have ht : t.filter (fun y => k y = i) = [] := by
        rw [List.filter_eq_nil_iff]
        intro b hb
        simp only [decide_eq_true_eq]
        intro hbk
        exact hnd.1 (by simpa [hk, ← hbk] using List.mem_map_of_mem k hb)
      simp [List.filter_cons, hk, ht]
    · have hne : ¬ (k a = i) := by
        intro hai
        exact hnd.1 (by simpa [hai, ← hk] using List.mem_map_of_mem k hxt)
      simp [List.filter_cons, hne, ih hnd.2 hxt]

theorem find?_eq_of_nodup_key {α : Type} {β : Type} [DecidableEq β]
    (k : α → β) {l : List α} (hnd : (l.map k).Nodup) {x : α} (hx : x ∈ l)
    {i : β} (hk : k x = i) :
    l.find? (fun y => k y = i) = some x := by
  induction l with
  | nil => cases hx
  | cons a t ih =>
    simp only [List.map_cons, List.nodup_cons] at hnd
    rcases List.mem_cons.mp hx with rfl | hxt
    · simp [List.find?_cons, hk]
    · have hne : ¬ (k a = i) := by
        intro hai
        exact hnd.1 (by simpa [hai, ← hk] using List.mem_map_of_mem k hxt)
      simp [List.find?_cons, hne, ih hnd.2 hxt]

theorem flatMap_eq_map_of_singleton {α : Type} {β : Type} {l : List α}
    {f : α → List β} {g : α → β} (h : ∀ a ∈ l, f a = [g a]) :
    l.flatMap f = l.map g := by
  induction l with
  | nil => rfl
  | cons a t ih =>
    rw [List.flatMap_cons, h a (List.mem_cons_self a t),
      ih (fun b hb => h b (List.mem_cons_of_mem a hb)), List.map_cons]
    rfl

/-! ## NetworkAnalyzer (`src/analytics/network.py`) -/

/-- One row of `get_follower_network`: a follow edge with both endpoints
resolved to usernames via the two inner joins on `users`. -/
structure NetworkRow where
  follower_username : String
  followee_username : String
  follow_time : Int
deriving DecidableEq, Repr

/-- The density metrics printed by `analyze_and_visualize_network`
(`src/analytics/network.py`, lines 43-50). -/
structure DensityReport where
  density : ℚ
  total_users : Nat
  total_connections : Nat
deriving DecidableEq, Repr

/-- Embedding of `NetworkAnalyzer.get_follower_network`: `follows` joined with
`users` on the follower id and again on the followee id. -/
def get_follower_network (snap : Snapshot) : List NetworkRow :=
  snap.follows.flatMap (fun f =>
    (snap.users.filter (fun u => u.user_id = f.follower_id)).flatMap (fun u1 =>
      (snap.users.filter (fun u => u.user_id = f.followee_id)).map (fun u2 =>
        ⟨u1.username, u2.username, f.follow_time⟩)))

/-- Embedding of the density computation in
`NetworkAnalyzer.analyze_and_visualize_network`: `num_users` is the number of
distinct usernames over both endpoint columns (`stack().nunique()`),
`num_edges` the number of network rows, and
`density = num_edges / (num_users * (num_users - 1))`.  The Python division
raises `ZeroDivisionError` when the denominator is `0`, embedded as `none`. -/
def networkDensityReport (snap : Snapshot) : Option DensityReport :=
  let rows := get_follower_network snap
  let num_users := countDistinct
    (rows.map (·.follower_username) ++ rows.map (·.followee_username))
  let num_edges := rows.length
  let max_possible_edges := num_users * (num_users - 1)
  if max_possible_edges = 0 then none
  else some ⟨(num_edges : ℚ) / (max_possible_edges : ℚ), num_users, num_edges⟩

/-- Username of the user with a given id (unique when user ids are nodup). -/
def nameOf (snap : Snapshot) (i : Nat) : String :=
  ((snap.users.find? (fun u => u.user_id = i)).map (·.username)).getD ""

/-- Specification-side node count: distinct users appearing as follower or
followee of some follow edge. -/
def networkNodes (snap : Snapshot) : Nat :=
  countDistinct (snap.follows.map (·.follower_id) ++ snap.follows.map (·.followee_id))

/-- Specification-side edge count: distinct (follower, followee) pairs. -/
def networkEdges (snap : Snapshot) : Nat :=
  countDistinct (snap.follows.map (fun f => (f.follower_id, f.followee_id)))

theorem follower_network_eq_map (snap : Snapshot)
    (hids : (snap.users.map (·.user_id)).Nodup)
    (href : ∀ f ∈ snap.follows, (∃ u ∈ snap.users, u.user_id = f.follower_id) ∧
      (∃ u ∈ snap.users, u.user_id = f.followee_id)) :
    get_follower_network snap = snap.follows.map (fun f =>
      ⟨nameOf snap f.follower_id, nameOf snap f.followee_id, f.follow_time⟩) := by
  apply flatMap_eq_map_of_singleton
  intro f hf
  obtain ⟨⟨u1, hu1, hk1⟩, ⟨u2, hu2, hk2⟩⟩ := href f hf
  rw [filter_eq_singleton_of_nodup_key (·.user_id) hids hu1 hk1,
    filter_eq_singleton_of_nodup_key (·.user_id) hids hu2 hk2]
  simp [nameOf, find?_eq_of_nodup_key (·.user_id) hids hu1 hk1,
    find?_eq_of_nodup_key (·.user_id) hids hu2 hk2]

theorem nameOf_spec (snap : Snapshot)
    (hids : (snap.users.map (·.user_id)).Nodup)
    {u : UserR} (hu : u ∈ snap.users) : nameOf snap u.user_id = u.username := by
  simp [nameOf, find?_eq_of_nodup_key (·.user_id) hids hu rfl]

/-- C8: with unique user ids, unique usernames, existing endpoints, no
self-loops and set-like follow edges, the density computation of
`analyze_and_visualize_network` reports
`density = edgeCount / (nodeCount * (nodeCount - 1))` together with the node
count (distinct users appearing as follower or followee) and the edge count
(distinct follow edges). -/
theorem network_density_formula (snap : Snapshot)
    (hids : (snap.users.map (·.user_id)).Nodup)
    (hname : ∀ u1 ∈ snap.users, ∀ u2 ∈ snap.users,
      u1.username = u2.username → u1.user_id = u2.user_id)
    (href : ∀ f ∈ snap.follows, (∃ u ∈ snap.users, u.user_id = f.follower_id) ∧
      (∃ u ∈ snap.users, u.user_id = f.followee_id))
    (hirr : ∀ f ∈ snap.follows, f.follower_id ≠ f.followee_id)
    (hedg : (snap.follows.map (fun f => (f.follower_id, f.followee_id))).Nodup)
    (hne : snap.follows ≠ []) :
    networkDensityReport snap = some
      ⟨(networkEdges snap : ℚ) /
          ((networkNodes snap * (networkNodes snap - 1) : Nat) : ℚ),
        networkNodes snap, networkEdges snap⟩ := by
  have hrows := follower_network_eq_map snap hids href
  have hlen : (get_follower_network snap).length = networkEdges snap := by
    rw [hrows]
    unfold networkEdges countDistinct
    rw [List.dedup_eq_self.mpr hedg]
    simp
  have endpoint_user : ∀ i ∈ (snap.follows.map (·.follower_id) ++
      snap.follows.map (·.followee_id)), ∃ u ∈ snap.users, u.user_id = i := by
    intro i hi
    rcases List.mem_append.mp hi with h | h
    · obtain ⟨f, hf, hfi⟩ := List.mem_map.mp h
      obtain ⟨⟨u, hu, hk⟩, _⟩ := href f hf
      exact ⟨u, hu, by rw [hk, hfi]⟩
    · obtain ⟨f, hf, hfi⟩ := List.mem_map.mp h
      obtain ⟨_, ⟨u, hu, hk⟩⟩ := href f hf
      exact ⟨u, hu, by rw [hk, hfi]⟩
  have husers : (get_follower_network snap).map (·.follower_username) ++
      (get_follower_network snap).map (·.followee_username) =
      (snap.follows.map (·.follower_id) ++
        snap.follows.map (·.followee_id)).map (nameOf snap) := by
    rw [hrows]
    simp [List.map_map, Function.comp_def]
  have hN : countDistinct ((get_follower_network snap).map (·.follower_username) ++
      (get_follower_network snap).map (·.followee_username)) = networkNodes snap := by
    rw [husers]
    unfold networkNodes
    have hmapF : ∀ (l : List Nat) (f : Nat → String),
        (l.map f).toFinset = l.toFinset.image f := by
      intro l f
      ext x
      simp
    rw [countDistinct_eq_card_toFinset, countDistinct_eq_card_toFinset, hmapF]
    apply Finset.card_image_of_injOn
    intro i1 hi1 i2 hi2 heq
    obtain ⟨u1, hu1, hk1⟩ := endpoint_user i1 (List.mem_toFinset.mp hi1)
    obtain ⟨u2, hu2, hk2⟩ := endpoint_user i2 (List.mem_toFinset.mp hi2)
    have hn1 : nameOf snap i1 = u1.username := by
      rw [← hk1]; exact nameOf_spec snap hids hu1
    have hn2 : nameOf snap i2 = u2.username := by
      rw [← hk2]; exact nameOf_spec snap hids hu2
    have := hname u1 hu1 u2 hu2 (by rw [← hn1, ← hn2]; exact heq)
    rw [← hk1, ← hk2, this]
  have hN2 : 2 ≤ networkNodes snap := by
    obtain ⟨f, hf⟩ := List.exists_mem_of_ne_nil snap.follows hne
    have h1 : f.follower_id ∈ (snap.follows.map (·.follower_id) ++
        snap.follows.map (·.followee_id)) :=
      List.mem_append.mpr (Or.inl (List.mem_map_of_mem _ hf))
    have h2 : f.followee_id ∈ (snap.follows.map (·.follower_id) ++
        snap.follows.map (·.followee_id)) :=
      List.mem_append.mpr (Or.inr (List.mem_map_of_mem _ hf))
    have : 1 < ((snap.follows.map (·.follower_id) ++
        snap.follows.map (·.followee_id)).toFinset).card :=
      Finset.one_lt_card.mpr ⟨f.follower_id, List.mem_toFinset.mpr h1,
        f.followee_id, List.mem_toFinset.mpr h2, hirr f hf⟩
    rw [networkNodes, countDistinct_eq_card_toFinset]
    omega
  have hNz : networkNodes snap * (networkNodes snap - 1) ≠ 0 :=
    Nat.mul_ne_zero (by omega) (by omega)
  simp only [networkDensityReport]
  rw [hN, hlen, if_neg hNz]

/-- C9 evidence: on a snapshot with no follow edges the density computation of
`analyze_and_visualize_network` divides zero edges by `0 * (0 - 1) = 0`, a
Python `ZeroDivisionError` (embedded as `none`), instead of returning an
explicitly empty result. -/
theorem empty_follows_density_error (snap : Snapshot)
    (h : snap.follows = []) : networkDensityReport snap = none := by
  simp [networkDensityReport, get_follower_network, h, countDistinct]

/-- The fully empty snapshot: zero rows in every table. -/
def emptySnapshot : Snapshot := ⟨[], [], [], [], []⟩

/-- Witness for C9: the empty snapshot makes the density computation fail. -/
theorem empty_follows_density_error_witness :
    networkDensityReport emptySnapshot = none :=
  empty_follows_density_error emptySnapshot rfl

/-- Concrete network for C8: 4 distinct users and 6 directed follow edges. -/
def densitySnap : Snapshot :=
  { users := [⟨1, "alice", "Alice", none, 0, true⟩,
      ⟨2, "bob", "Bob", none, 0, true⟩,
      ⟨3, "carol", "Carol", none, 0, true⟩,
      ⟨4, "dave", "Dave", none, 0, true⟩]
    posts := []
    comments := []
    likes := []
    follows := [⟨1, 2, 0⟩, ⟨2, 1, 1⟩, ⟨1, 3, 2⟩, ⟨3, 4, 3⟩, ⟨4, 2, 4⟩, ⟨2, 3, 5⟩] }

/-- Witness for C8: on 4 users and 6 edges the report is
`6 / (4 * 3) = 0.5` with node count 4 and edge count 6. -/
theorem network_density_formula_witness :
    networkDensityReport densitySnap = some
      ⟨(networkEdges densitySnap : ℚ) /
          ((networkNodes densitySnap * (networkNodes densitySnap - 1) : Nat) : ℚ),
        networkNodes densitySnap, networkEdges densitySnap⟩ ∧
      networkNodes densitySnap = 4 ∧ networkEdges densitySnap = 6 ∧
      networkDensityReport densitySnap = some ⟨1/2, 4, 6⟩ :=
  ⟨network_density_formula densitySnap (by decide) (by decide) (by decide)
      (by decide) (by decide) (by decide),
    by decide, by decide, by with_unfolding_all decide⟩

/-! ## EngagementAnalyzer (`src/analytics/engagement.py`) -/

/-- One row of the join inside the `post_stats` CTE of `get_post_engagement`:
`posts LEFT JOIN likes LEFT JOIN comments JOIN users LEFT JOIN follows`. -/
structure EngJoinRow where
  p : PostR
  lk : Option LikeR
  cm : Option CommentR
  us : UserR
  fo : Option FollowR
deriving DecidableEq, Repr

/-- The join of the `post_stats` CTE, restricted by
`WHERE p.post_time >= :start_date`. -/
def engJoinRows (snap : Snapshot) (start_date : Int) : List EngJoinRow :=
  (snap.posts.filter (fun p => start_date ≤ p.post_time)).flatMap (fun p =>
    (leftJoin (snap.likes.filter (fun l => l.post_id = some p.post_id))).flatMap (fun lk =>
      (leftJoin (snap.comments.filter (fun c => c.post_id = p.post_id))).flatMap (fun cm =>
        (snap.users.filter (fun u => u.user_id = p.user_id)).flatMap (fun us =>
          (leftJoin (snap.follows.filter (fun f => f.followee_id = p.user_id))).map (fun fo =>
            ⟨p, lk, cm, us, fo⟩)))))

/-- The key of `GROUP BY p.post_id, p.user_id, u.username, p.post_text,
p.post_time`. -/
def engKey (r : EngJoinRow) : Nat × Nat × String × String × Int :=
  (r.p.post_id, r.p.user_id, r.us.username, r.p.post_text, r.p.post_time)

/-- One row of the `post_stats` CTE after grouping. -/
structure PostStatsRow where
  post_id : Nat
  author_id : Nat
  author_name : String
  post_text : String
  post_time : Int
  like_count : Nat
  comment_count : Nat
  follower_count : Nat
deriving DecidableEq, Repr

/-- Embedding of the `post_stats` CTE: group the join rows by the `GROUP BY`
key and compute `COUNT(DISTINCT l.user_id)`, `COUNT(DISTINCT c.comment_id)`
and `COUNT(DISTINCT f.follower_id)` per group. -/
def post_stats (snap : Snapshot) (start_date : Int) : List PostStatsRow :=
  let rows := engJoinRows snap start_date
  ((rows.map engKey).dedup).map (fun k =>
    let g := rows.filter (fun r => engKey r = k)
    { post_id := k.1, author_id := k.2.1, author_name := k.2.2.1,
      post_text := k.2.2.2.1, post_time := k.2.2.2.2,
      like_count := countDistinct (g.filterMap (fun r => r.lk.map (·.user_id))),
      comment_count := countDistinct (g.filterMap (fun r => r.cm.map (·.comment_id))),
      follower_count := countDistinct (g.filterMap (fun r => r.fo.map (·.follower_id))) })

/-- One result row of `get_post_engagement`. -/
structure EngRow where
  post_id : Nat
  author_id : Nat
  author_name : String
  post_text : String
  post_time : Int
  like_count : Nat
  comment_count : Nat
  follower_count : Nat
  engagement_rate : Option ℚ
  engagement_rank : Nat
deriving DecidableEq, Repr

/-- SQL `ROUND((like_count + comment_count) * 100.0 / NULLIF(follower_count, 0), 2)`:
`NULLIF` turns a zero denominator into `NULL`, which propagates through the
division and `ROUND`. -/
def engagementRateOf (r : PostStatsRow) : Option ℚ :=
  if r.follower_count = 0 then none
  else some (round2 (((r.like_count : ℚ) + r.comment_count) * 100 / r.follower_count))

/-- SQL `RANK() OVER (ORDER BY (like_count + comment_count) DESC)`:
one plus the number of rows with strictly greater combined count. -/
def engRank (stats : List PostStatsRow) (r : PostStatsRow) : Nat :=
  1 + (stats.filter (fun r2 =>
    r.like_count + r.comment_count < r2.like_count + r2.comment_count)).length

/-- Descending order on nullable rates with `NULL` first, PostgreSQL's
default for `ORDER BY engagement_rate DESC`. -/
def rateGE : Option ℚ → Option ℚ → Prop
  | none, _ => True
  | some _, none => False
  | some x, some y => y ≤ x

instance rateGE.decidable : ∀ a b, Decidable (rateGE a b)
  | none, _ => isTrue trivial
  | some _, none => isFalse (fun h => h)
  | some x, some y => inferInstanceAs (Decidable (y ≤ x))

/-- The final `ORDER BY engagement_rate DESC` of `get_post_engagement`. -/
def engOrder (a b : EngRow) : Prop := rateGE a.engagement_rate b.engagement_rate

instance : DecidableRel engOrder := fun a b =>
  inferInstanceAs (Decidable (rateGE a.engagement_rate b.engagement_rate))

/-- The `SELECT` of `get_post_engagement` applied to one `post_stats` row:
copy the grouped columns and add the rate and the rank computed over all
`post_stats` rows. -/
def engRowOf (stats : List PostStatsRow) (s : PostStatsRow) : EngRow :=
  { post_id := s.post_id, author_id := s.author_id, author_name := s.author_name,
    post_text := s.post_text, post_time := s.post_time, like_count := s.like_count,
    comment_count := s.comment_count, follower_count := s.follower_count,
    engagement_rate := engagementRateOf s,
    engagement_rank := engRank stats s }

/-- Embedding of `EngagementAnalyzer.get_post_engagement`: the `post_stats`
CTE with `start_date = now - days * 86400` (Python
`datetime.utcnow() - timedelta(days=days)`), extended with the rate and the
rank, ordered by rate descending. -/
def get_post_engagement (snap : Snapshot) (now days : Int) : List EngRow :=
  let stats := post_stats snap (now - days * 86400)
  (stats.map (engRowOf stats)).insertionSort engOrder

/-- Specification-side count of distinct users who liked a post. -/
def distinctLikers (snap : Snapshot) (pid : Nat) : Nat :=
  countDistinct ((snap.likes.filter (fun l => l.post_id = some pid)).map (·.user_id))

/-- Specification-side count of distinct comments on a post. -/
def distinctComments (snap : Snapshot) (pid : Nat) : Nat :=
  countDistinct ((snap.comments.filter (fun c => c.post_id = pid)).map (·.comment_id))

/-- Specification-side count of distinct followers of a user. -/
def followerCount (snap : Snapshot) (uid : Nat) : Nat :=
  countDistinct ((snap.follows.filter (fun f => f.followee_id = uid)).map (·.follower_id))

theorem mem_engJoinRows {snap : Snapshot} {start : Int} {r : EngJoinRow} :
    r ∈ engJoinRows snap start ↔
      (r.p ∈ snap.posts ∧ start ≤ r.p.post_time) ∧
      r.lk ∈ leftJoin (snap.likes.filter (fun l => l.post_id = some r.p.post_id)) ∧
      r.cm ∈ leftJoin (snap.comments.filter (fun c => c.post_id = r.p.post_id)) ∧
      (r.us ∈ snap.users ∧ r.us.user_id = r.p.user_id) ∧
      r.fo ∈ leftJoin (snap.follows.filter (fun f => f.followee_id = r.p.user_id)) := by
  obtain ⟨p, lk, cm, us, fo⟩ := r
  simp only [engJoinRows, List.mem_flatMap, List.mem_map, List.mem_filter,
    decide_eq_true_eq, EngJoinRow.mk.injEq]
  constructor
  · rintro ⟨p', ⟨hp', hpt⟩, lk', hlk', cm', hcm', us', ⟨hus', husid⟩, fo', hfo',
      rfl, rfl, rfl, rfl, rfl⟩
    exact ⟨⟨hp', hpt⟩, hlk', hcm', ⟨hus', husid⟩, hfo'⟩
  · rintro ⟨⟨hp, hpt⟩, hlk, hcm, ⟨hus, husid⟩, hfo⟩
    exact ⟨p, ⟨hp, hpt⟩, lk, hlk, cm, hcm, us, ⟨hus, husid⟩, fo, hfo,
      rfl, rfl, rfl, rfl, rfl⟩

theorem exists_row_of_engKey {snap : Snapshot} {start : Int}
    {k : Nat × Nat × String × String × Int}
    (hk : k ∈ ((engJoinRows snap start).map engKey).dedup) :
    ∃ r₀ ∈ engJoinRows snap start, engKey r₀ = k := by
  have := List.mem_dedup.mp hk
  obtain ⟨r₀, hr₀, hkey⟩ := List.mem_map.mp this
  exact ⟨r₀, hr₀, hkey⟩

theorem engGroup_like_count (snap : Snapshot) (start : Int)
    {k : Nat × Nat × String × String × Int}
    (hk : k ∈ ((engJoinRows snap start).map engKey).dedup) :
    countDistinct (((engJoinRows snap start).filter (fun r => engKey r = k)).filterMap
      (fun r => r.lk.map (·.user_id))) = distinctLikers snap k.1 := by
  apply countDistinct_congr
  ext a
  simp only [List.mem_toFinset, List.mem_filterMap, List.mem_filter, decide_eq_true_eq,
    distinctLikers, List.mem_map, Option.map_eq_some']
  constructor
  · rintro ⟨r, ⟨hr, hkey⟩, l, hlk, rfl⟩
    have hcomp := (mem_engJoinRows.mp hr).2.1
    rw [hlk] at hcomp
    have hl := List.mem_filter.mp (mem_leftJoin_some.mp hcomp)
    have hpid : r.p.post_id = k.1 := by rw [← hkey]; rfl
    refine ⟨l, ⟨hl.1, ?_⟩, rfl⟩
    simpa [← hpid] using hl.2
  · rintro ⟨l, hl', rfl⟩
    obtain ⟨r₀, hr₀, hkey₀⟩ := exists_row_of_engKey hk
    have hpid : r₀.p.post_id = k.1 := by rw [← hkey₀]; rfl
    have hcomps := mem_engJoinRows.mp hr₀
    refine ⟨⟨r₀.p, some l, r₀.cm, r₀.us, r₀.fo⟩, ⟨?_, ?_⟩, l, rfl, rfl⟩
    · exact mem_engJoinRows.mpr ⟨hcomps.1,
        mem_leftJoin_some.mpr (List.mem_filter.mpr ⟨hl'.1, by simpa [hpid] using hl'.2⟩),
        hcomps.2.2.1, hcomps.2.2.2.1, hcomps.2.2.2.2⟩
    · rw [← hkey₀]; rfl

theorem engGroup_comment_count (snap : Snapshot) (start : Int)
    {k : Nat × Nat × String × String × Int}
    (hk : k ∈ ((engJoinRows snap start).map engKey).dedup) :
    countDistinct (((engJoinRows snap start).filter (fun r => engKey r = k)).filterMap
      (fun r => r.cm.map (·.comment_id))) = distinctComments snap k.1 := by
  apply countDistinct_congr
  ext a
  simp only [List.mem_toFinset, List.mem_filterMap, List.mem_filter, decide_eq_true_eq,
    distinctComments, List.mem_map, Option.map_eq_some']
  constructor
  · rintro ⟨r, ⟨hr, hkey⟩, c, hcm, rfl⟩
    have hcomp := (mem_engJoinRows.mp hr).2.2.1
    rw [hcm] at hcomp
    have hc := List.mem_filter.mp (mem_leftJoin_some.mp hcomp)
    have hpid : r.p.post_id = k.1 := by rw [← hkey]; rfl
    refine ⟨c, ⟨hc.1, ?_⟩, rfl⟩
    simpa [← hpid] using hc.2
  · rintro ⟨c, hc', rfl⟩
    obtain ⟨r₀, hr₀, hkey₀⟩ := exists_row_of_engKey hk
    have hpid : r₀.p.post_id = k.1 := by rw [← hkey₀]; rfl
    have hcomps := mem_engJoinRows.mp hr₀
    refine ⟨⟨r₀.p, r₀.lk, some c, r₀.us, r₀.fo⟩, ⟨?_, ?_⟩, c, rfl, rfl⟩
    · exact mem_engJoinRows.mpr ⟨hcomps.1, hcomps.2.1,
        mem_leftJoin_some.mpr (List.mem_filter.mpr ⟨hc'.1, by simpa [hpid] using hc'.2⟩),
        hcomps.2.2.2.1, hcomps.2.2.2.2⟩
    · rw [← hkey₀]; rfl

theorem engGroup_follower_count (snap : Snapshot) (start : Int)
    {k : Nat × Nat × String × String × Int}
    (hk : k ∈ ((engJoinRows snap start).map engKey).dedup) :
    countDistinct (((engJoinRows snap start).filter (fun r => engKey r = k)).filterMap
      (fun r => r.fo.map (·.follower_id))) = followerCount snap k.2.1 := by
  apply countDistinct_congr
  ext a
  simp only [List.mem_toFinset, List.mem_filterMap, List.mem_filter, decide_eq_true_eq,
    followerCount, List.mem_map, Option.map_eq_some']
  constructor
  · rintro ⟨r, ⟨hr, hkey⟩, f, hfo, rfl⟩
    have hcomp := (mem_engJoinRows.mp hr).2.2.2.2
    rw [hfo] at hcomp
    have hf := List.mem_filter.mp (mem_leftJoin_some.mp hcomp)
    have huid : r.p.user_id = k.2.1 := by rw [← hkey]; rfl
    refine ⟨f, ⟨hf.1, ?_⟩, rfl⟩
    simpa [← huid] using hf.2
  · rintro ⟨f, hf', rfl⟩
    obtain ⟨r₀, hr₀, hkey₀⟩ := exists_row_of_engKey hk
    have huid : r₀.p.user_id = k.2.1 := by rw [← hkey₀]; rfl
    have hcomps := mem_engJoinRows.mp hr₀
    refine ⟨⟨r₀.p, r₀.lk, r₀.cm, r₀.us, some f⟩, ⟨?_, ?_⟩, f, rfl, rfl⟩
    · exact mem_engJoinRows.mpr ⟨hcomps.1, hcomps.2.1, hcomps.2.2.1,
        hcomps.2.2.2.1,
        mem_leftJoin_some.mpr (List.mem_filter.mpr ⟨hf'.1, by simpa [huid] using hf'.2⟩)⟩
    · rw [← hkey₀]; rfl

theorem post_stats_fields {snap : Snapshot} {start : Int} {row : PostStatsRow}
    (h : row ∈ post_stats snap start) :
    row.like_count = distinctLikers snap row.post_id ∧
    row.comment_count = distinctComments snap row.post_id ∧
    row.follower_count = followerCount snap row.author_id := by
  simp only [post_stats, List.mem_map] at h
  obtain ⟨k, hk, rfl⟩ := h
  exact ⟨engGroup_like_count snap start hk, engGroup_comment_count snap start hk,
    engGroup_follower_count snap start hk⟩

theorem mem_get_post_engagement {snap : Snapshot} {now days : Int} {r : EngRow}
    (h : r ∈ get_post_engagement snap now days) :
    ∃ s ∈ post_stats snap (now - days * 86400),
      r = engRowOf (post_stats snap (now - days * 86400)) s := by
  simp only [get_post_engagement, List.mem_insertionSort, List.mem_map] at h
  obtain ⟨s, hs, rfl⟩ := h
  exact ⟨s, hs, rfl⟩

/-- C2 (amended): for every row of `get_post_engagement`, `engagement_rate`
is `NULL` exactly when the author's distinct-follower count is 0 — never a
division error, never coerced to 0 — and otherwise equals
`(distinct likers + distinct comments) * 100 / followers` rounded to two
decimal places. -/
theorem engagement_rate_spec (snap : Snapshot) (now days : Int) (r : EngRow)
    (h : r ∈ get_post_engagement snap now days) :
    (r.engagement_rate = none ↔ followerCount snap r.author_id = 0) ∧
    (followerCount snap r.author_id ≠ 0 →
      r.engagement_rate = some (round2
        (((distinctLikers snap r.post_id : ℚ) + (distinctComments snap r.post_id : ℚ)) *
          100 / (followerCount snap r.author_id : ℚ)))) := by
  obtain ⟨s, hs, rfl⟩ := mem_get_post_engagement h
  obtain ⟨hl, hc, hf⟩ := post_stats_fields hs
  simp only [engRowOf]
  rw [← hf, ← hl, ← hc]
  constructor
  · simp only [engagementRateOf]
    split
    next h0 => simpa using h0
    next h0 => simpa using h0
  · intro hne
    simp only [engagementRateOf, if_neg hne]

/-- Concrete snapshot for C2: author 1 has followers 2, 3, 4; their single
post has one like and no comments, so the exact rate `100 / 3` is rounded by
the query to `33.33`. -/
def rateSnap : Snapshot :=
  { users := [⟨1, "ann", "Ann", none, 0, true⟩, ⟨2, "bo", "Bo", none, 0, true⟩,
      ⟨3, "cy", "Cy", none, 0, true⟩, ⟨4, "di", "Di", none, 0, true⟩]
    posts := [⟨10, 1, "hello", none, 0, true⟩]
    comments := []
    likes := [⟨100, some 10, none, 2, 1⟩]
    follows := [⟨2, 1, 0⟩, ⟨3, 1, 0⟩, ⟨4, 1, 0⟩] }

theorem rateSnap_stats_eval :
    post_stats rateSnap (0 - 30 * 86400) = [⟨10, 1, "ann", "hello", 0, 1, 0, 3⟩] := by
  decide

theorem rateSnap_out_eval :
    get_post_engagement rateSnap 0 30 =
      [⟨10, 1, "ann", "hello", 0, 1, 0, 3, some (3333/100), 1⟩] := by
  unfold get_post_engagement
  rw [rateSnap_stats_eval]
  simp only [List.map, List.insertionSort, List.orderedInsert, engRowOf, engRank,
    engagementRateOf, List.filter]
  norm_num [round2]

/-- Counterexample to C2 as stated: the returned rate is the rounded value
`33.33 = 3333/100`, not the exact `(1 + 0) * 100 / 3`. -/
theorem engagement_rate_exact_counterexample :
    ((get_post_engagement rateSnap 0 30).map (fun r =>
      (r.engagement_rate, r.like_count, r.comment_count, r.follower_count))) =
      [(some (3333/100), 1, 0, 3)] ∧
    (3333/100 : ℚ) ≠ ((1 : ℚ) + 0) * 100 / 3 := by
  constructor
  · rw [rateSnap_out_eval]
    rfl
  · norm_num

/-- Fallback row used to extract concrete rows from analyzer outputs. -/
def defaultEngRow : EngRow :=
  ⟨0, 0, "", "", 0, 0, 0, 0, none, 0⟩

/-- The single row `get_post_engagement` returns on `rateSnap`. -/
def rateRow : EngRow := (get_post_engagement rateSnap 0 30).getD 0 defaultEngRow

/-- Witness for C2: the amended statement instantiated on `rateSnap`. -/
theorem engagement_rate_spec_witness :
    (rateRow.engagement_rate = none ↔ followerCount rateSnap rateRow.author_id = 0) ∧
    (followerCount rateSnap rateRow.author_id ≠ 0 →
      rateRow.engagement_rate = some (round2
        (((distinctLikers rateSnap rateRow.post_id : ℚ) +
          (distinctComments rateSnap rateRow.post_id : ℚ)) *
          100 / (followerCount rateSnap rateRow.author_id : ℚ)))) :=
  engagement_rate_spec rateSnap 0 30 rateRow
    (by rw [rateRow, rateSnap_out_eval]; exact List.mem_singleton.mpr rfl)

/-- C4 (amended): `engagement_rank` is the SQL `RANK()` (competition rank)
over the combined count descending: one plus the number of result rows with a
strictly greater combined count.  Equal combined counts share a rank, but the
rank following a tie is offset by the tie size — not the consecutive dense
rank. -/
theorem engagement_rank_spec (snap : Snapshot) (now days : Int) (r : EngRow)
    (h : r ∈ get_post_engagement snap now days) :
    r.engagement_rank = 1 + ((get_post_engagement snap now days).filter
      (fun r2 => r.like_count + r.comment_count <
        r2.like_count + r2.comment_count)).length := by
  obtain ⟨s, hs, rfl⟩ := mem_get_post_engagement h
  have hperm : List.Perm (get_post_engagement snap now days)
      ((post_stats snap (now - days * 86400)).map
        (engRowOf (post_stats snap (now - days * 86400)))) := by
    simp only [get_post_engagement]
    exact List.perm_insertionSort engOrder _
  rw [← List.countP_eq_length_filter, hperm.countP_eq, List.countP_map]
  simp only [engRowOf, engRank, ← List.countP_eq_length_filter]
  rfl

/-- Concrete snapshot for C4: three posts with combined counts 2, 2 and 0
(authors have no followers, so every rate is the same `NULL`). -/
def rankSnap : Snapshot :=
  { users := [⟨1, "u1", "U1", none, 0, true⟩, ⟨2, "u2", "U2", none, 0, true⟩,
      ⟨3, "u3", "U3", none, 0, true⟩, ⟨4, "u4", "U4", none, 0, true⟩]
    posts := [⟨1, 1, "a", none, 0, true⟩, ⟨2, 2, "b", none, 0, true⟩,
      ⟨3, 3, "c", none, 0, true⟩]
    comments := [⟨200, 1, 4, none, "x", 0⟩, ⟨201, 2, 4, none, "y", 0⟩]
    likes := [⟨100, some 1, none, 4, 0⟩, ⟨101, some 2, none, 4, 0⟩]
    follows := [] }

/-- Counterexample to C4 as stated: on combined counts `2, 2, 0` the query
assigns ranks `1, 1, 3` — the dense rank of the last row would be
`1 + (number of distinct greater combined counts) = 2`, so ranks are not
consecutive after a tie. -/
theorem engagement_rank_dense_counterexample :
    ((get_post_engagement rankSnap 0 30).map (fun r =>
      (r.like_count + r.comment_count, r.engagement_rank))) =
      [(2, 1), (2, 1), (0, 3)] ∧
    1 + countDistinct (((get_post_engagement rankSnap 0 30).filter (fun r2 =>
      0 < r2.like_count + r2.comment_count)).map (fun r2 =>
        r2.like_count + r2.comment_count)) = 2 ∧
    (3 : Nat) ≠ 2 := by
  refine ⟨by decide, by decide, by decide⟩

/-- The first row `get_post_engagement` returns on `rankSnap`. -/
def rankRow : EngRow := (get_post_engagement rankSnap 0 30).getD 0 defaultEngRow

/-- Witness for C4: the amended statement instantiated on `rankSnap`. -/
theorem engagement_rank_spec_witness :
    rankRow.engagement_rank = 1 + ((get_post_engagement rankSnap 0 30).filter
      (fun r2 => rankRow.like_count + rankRow.comment_count <
        r2.like_count + r2.comment_count)).length :=
  engagement_rank_spec rankSnap 0 30 rankRow (by decide)

/-- One row of the six-way join inside `get_user_engagement_summary`:
`users LEFT JOIN posts LEFT JOIN likes LEFT JOIN comments LEFT JOIN follows f
LEFT JOIN follows fl`.  The `likes` and `comments` join conditions reference
`p.post_id`, so they match nothing when the posts side is `NULL`. -/
structure SumJoinRow where
  us : UserR
  po : Option PostR
  lk : Option LikeR
  cm : Option CommentR
  fo : Option FollowR
  fl : Option FollowR
deriving DecidableEq, Repr

/-- Likes matching `ON p.post_id = l.post_id`; a `NULL` post matches none. -/
def postLikes (snap : Snapshot) : Option PostR → List LikeR
  | none => []
  | some p => snap.likes.filter (fun l => l.post_id = some p.post_id)

/-- Comments matching `ON p.post_id = c.post_id`; a `NULL` post matches none. -/
def postComments (snap : Snapshot) : Option PostR → List CommentR
  | none => []
  | some p => snap.comments.filter (fun c => c.post_id = p.post_id)

/-- The join of `get_user_engagement_summary`. -/
def sumJoinRows (snap : Snapshot) : List SumJoinRow :=
  snap.users.flatMap (fun u =>
    (leftJoin (snap.posts.filter (fun p => p.user_id = u.user_id))).flatMap (fun po =>
      (leftJoin (postLikes snap po)).flatMap (fun lk =>
        (leftJoin (postComments snap po)).flatMap (fun cm =>
          (leftJoin (snap.follows.filter (fun f => f.followee_id = u.user_id))).flatMap (fun fo =>
            (leftJoin (snap.follows.filter (fun f => f.follower_id = u.user_id))).map (fun fl =>
              ⟨u, po, lk, cm, fo, fl⟩))))))

/-- The key of `GROUP BY u.user_id, u.username`. -/
def sumKey (r : SumJoinRow) : Nat × String := (r.us.user_id, r.us.username)

/-- One result row of `get_user_engagement_summary`. -/
structure UserSummaryRow where
  user_id : Nat
  username : String
  post_count : Nat
  likes_received : Nat
  comments_received : Nat
  follower_count : Nat
  following_count : Nat
  avg_like_rate : Option ℚ
  avg_comment_rate : Option ℚ
deriving DecidableEq, Repr

/-- The aggregates of one `GROUP BY` group of `get_user_engagement_summary`. -/
def userSummaryOf (g : List SumJoinRow) (k : Nat × String) : UserSummaryRow :=
  let likes_received := countDistinct (g.filterMap (fun r => r.lk.map (·.like_id)))
  let comments_received := countDistinct (g.filterMap (fun r => r.cm.map (·.comment_id)))
  let follower_count := countDistinct (g.filterMap (fun r => r.fo.map (·.follower_id)))
  { user_id := k.1, username := k.2,
    post_count := countDistinct (g.filterMap (fun r => r.po.map (·.post_id))),
    likes_received := likes_received,
    comments_received := comments_received,
    follower_count := follower_count,
    following_count := countDistinct (g.filterMap (fun r => r.fl.map (·.followee_id))),
    avg_like_rate := if follower_count = 0 then none
      else some (round2 ((likes_received : ℚ) * 100 / follower_count)),
    avg_comment_rate := if follower_count = 0 then none
      else some (round2 ((comments_received : ℚ) * 100 / follower_count)) }

/-- The final `ORDER BY likes_received DESC` of `get_user_engagement_summary`. -/
def sumOrder (a b : UserSummaryRow) : Prop := b.likes_received ≤ a.likes_received

instance : DecidableRel sumOrder := fun a b =>
  inferInstanceAs (Decidable (b.likes_received ≤ a.likes_received))

/-- Embedding of `EngagementAnalyzer.get_user_engagement_summary`. -/
def get_user_engagement_summary (snap : Snapshot) : List UserSummaryRow :=
  let rows := sumJoinRows snap
  (((rows.map sumKey).dedup).map (fun k =>
    userSummaryOf (rows.filter (fun r => sumKey r = k)) k)).insertionSort sumOrder

/-- Specification-side count: distinct likes whose target is one of the
user's own posts (a like row with `post_id = NULL` can never qualify). -/
def likesOnOwnPosts (snap : Snapshot) (uid : Nat) : Nat :=
  countDistinct (((snap.posts.filter (fun p => p.user_id = uid)).flatMap (fun p =>
    snap.likes.filter (fun l => l.post_id = some p.post_id))).map (·.like_id))

/-- Specification-side count: distinct comments on the user's own posts. -/
def commentsOnOwnPosts (snap : Snapshot) (uid : Nat) : Nat :=
  countDistinct (((snap.posts.filter (fun p => p.user_id = uid)).flatMap (fun p =>
    snap.comments.filter (fun c => c.post_id = p.post_id))).map (·.comment_id))

theorem mem_sumJoinRows {snap : Snapshot} {r : SumJoinRow} :
    r ∈ sumJoinRows snap ↔
      r.us ∈ snap.users ∧
      r.po ∈ leftJoin (snap.posts.filter (fun p => p.user_id = r.us.user_id)) ∧
      r.lk ∈ leftJoin (postLikes snap r.po) ∧
      r.cm ∈ leftJoin (postComments snap r.po) ∧
      r.fo ∈ leftJoin (snap.follows.filter (fun f => f.followee_id = r.us.user_id)) ∧
      r.fl ∈ leftJoin (snap.follows.filter (fun f => f.follower_id = r.us.user_id)) := by
  obtain ⟨us, po, lk, cm, fo, fl⟩ := r
  simp only [sumJoinRows, List.mem_flatMap, List.mem_map, SumJoinRow.mk.injEq]
  constructor
  · rintro ⟨us', hus', po', hpo', lk', hlk', cm', hcm', fo', hfo', fl', hfl',
      rfl, rfl, rfl, rfl, rfl, rfl⟩
    exact ⟨hus', hpo', hlk', hcm', hfo', hfl'⟩
  · rintro ⟨hus, hpo, hlk, hcm, hfo, hfl⟩
    exact ⟨us, hus, po, hpo, lk, hlk, cm, hcm, fo, hfo, fl, hfl,
      rfl, rfl, rfl, rfl, rfl, rfl⟩

theorem exists_row_of_sumKey {snap : Snapshot} {k : Nat × String}
    (hk : k ∈ ((sumJoinRows snap).map sumKey).dedup) :
    ∃ r₀ ∈ sumJoinRows snap, sumKey r₀ = k := by
  have := List.mem_dedup.mp hk
  obtain ⟨r₀, hr₀, hkey⟩ := List.mem_map.mp this
  exact ⟨r₀, hr₀, hkey⟩

theorem sumGroup_likes_received (snap : Snapshot) {k : Nat × String}
    (hk : k ∈ ((sumJoinRows snap).map sumKey).dedup) :
    countDistinct (((sumJoinRows snap).filter (fun r => sumKey r = k)).filterMap
      (fun r => r.lk.map (·.like_id))) = likesOnOwnPosts snap k.1 := by
  apply countDistinct_congr
  ext a
  simp only [List.mem_toFinset, List.mem_filterMap, List.mem_filter, decide_eq_true_eq,
    likesOnOwnPosts, List.mem_map, List.mem_flatMap, Option.map_eq_some']
  constructor
  · rintro ⟨r, ⟨hr, hkey⟩, l, hlk, rfl⟩
    have hcomps := mem_sumJoinRows.mp hr
    have hlkJ := hcomps.2.2.1
    rw [hlk] at hlkJ
    have hl := mem_leftJoin_some.mp hlkJ
    match hpo : r.po with
    | none => rw [hpo] at hl; cases hl
    | some p =>
      rw [hpo] at hl
      have hpJ := hcomps.2.1
      rw [hpo] at hpJ
      have hp := List.mem_filter.mp (mem_leftJoin_some.mp hpJ)
      have huid : r.us.user_id = k.1 := by rw [← hkey]; rfl
      have hl2 : l ∈ snap.likes ∧ l.post_id = some p.post_id := by
        simpa [postLikes, List.mem_filter] using hl
      refine ⟨l, ⟨p, ⟨hp.1, ?_⟩, hl2⟩, rfl⟩
      simpa [← huid] using hp.2
  · rintro ⟨l, ⟨p, hp', hl⟩, rfl⟩
    obtain ⟨r₀, hr₀, hkey₀⟩ := exists_row_of_sumKey hk
    have hcomps := mem_sumJoinRows.mp hr₀
    have huid : r₀.us.user_id = k.1 := by rw [← hkey₀]; rfl
    obtain ⟨cm₀, hcm₀⟩ := exists_mem_leftJoin (postComments snap (some p))
    refine ⟨⟨r₀.us, some p, some l, cm₀, r₀.fo, r₀.fl⟩, ⟨?_, ?_⟩, l, rfl, rfl⟩
    · refine mem_sumJoinRows.mpr ⟨hcomps.1, ?_, ?_, hcm₀, hcomps.2.2.2.2.1,
        hcomps.2.2.2.2.2⟩
      · exact mem_leftJoin_some.mpr (List.mem_filter.mpr
          ⟨hp'.1, by simpa [huid] using hp'.2⟩)
      · exact mem_leftJoin_some.mpr (by simpa [postLikes] using hl)
    · rw [← hkey₀]; rfl

theorem sumGroup_comments_received (snap : Snapshot) {k : Nat × String}
    (hk : k ∈ ((sumJoinRows snap).map sumKey).dedup) :
    countDistinct (((sumJoinRows snap).filter (fun r => sumKey r = k)).filterMap
      (fun r => r.cm.map (·.comment_id))) = commentsOnOwnPosts snap k.1 := by
  apply countDistinct_congr
  ext a
  simp only [List.mem_toFinset, List.mem_filterMap, List.mem_filter, decide_eq_true_eq,
    commentsOnOwnPosts, List.mem_map, List.mem_flatMap, Option.map_eq_some']
  constructor
  · rintro ⟨r, ⟨hr, hkey⟩, c, hcm, rfl⟩
    have hcomps := mem_sumJoinRows.mp hr
    have hcmJ := hcomps.2.2.2.1
    rw [hcm] at hcmJ
    have hc := mem_leftJoin_some.mp hcmJ
    match hpo : r.po with
    | none => rw [hpo] at hc; cases hc
    | some p =>
      rw [hpo] at hc
      have hpJ := hcomps.2.1
      rw [hpo] at hpJ
      have hp := List.mem_filter.mp (mem_leftJoin_some.mp hpJ)
      have huid : r.us.user_id = k.1 := by rw [← hkey]; rfl
      have hc2 : c ∈ snap.comments ∧ c.post_id = p.post_id := by
        simpa [postComments, List.mem_filter] using hc
      refine ⟨c, ⟨p, ⟨hp.1, ?_⟩, hc2⟩, rfl⟩
      simpa [← huid] using hp.2
  · rintro ⟨c, ⟨p, hp', hc⟩, rfl⟩
    obtain ⟨r₀, hr₀, hkey₀⟩ := exists_row_of_sumKey hk
    have hcomps := mem_sumJoinRows.mp hr₀
    have huid : r₀.us.user_id = k.1 := by rw [← hkey₀]; rfl
    obtain ⟨lk₀, hlk₀⟩ := exists_mem_leftJoin (postLikes snap (some p))
    refine ⟨⟨r₀.us, some p, lk₀, some c, r₀.fo, r₀.fl⟩, ⟨?_, ?_⟩, c, rfl, rfl⟩
    · refine mem_sumJoinRows.mpr ⟨hcomps.1, ?_, hlk₀, ?_, hcomps.2.2.2.2.1,
        hcomps.2.2.2.2.2⟩
      · exact mem_leftJoin_some.mpr (List.mem_filter.mpr
          ⟨hp'.1, by simpa [huid] using hp'.2⟩)
      · exact mem_leftJoin_some.mpr (by simpa [postComments] using hc)
    · rw [← hkey₀]; rfl

/-- C10: every `likes_received` / `comments_received` in
`get_user_engagement_summary` counts exactly the distinct likes/comments
attached to the user's own posts via `p.post_id = l.post_id` /
`p.post_id = c.post_id`; a like whose `post_id` is `NULL` (a comment-target
like, by the `chk_like_target` constraint) is counted toward no user, even
when the liked comment sits on that user's post. -/
theorem summary_received_own_posts (snap : Snapshot) (r : UserSummaryRow)
    (hlid : (snap.likes.map (·.like_id)).Nodup)
    (h : r ∈ get_user_engagement_summary snap) :
    r.likes_received = likesOnOwnPosts snap r.user_id ∧
    r.comments_received = commentsOnOwnPosts snap r.user_id ∧
    ∀ l ∈ snap.likes, l.post_id = none → ∀ uid,
      l.like_id ∉ ((snap.posts.filter (fun p => p.user_id = uid)).flatMap (fun p =>
        snap.likes.filter (fun l2 => l2.post_id = some p.post_id))).map (·.like_id) := by
  simp only [get_user_engagement_summary, List.mem_insertionSort, List.mem_map] at h
  obtain ⟨k, hk, rfl⟩ := h
  refine ⟨?_, ?_, ?_⟩
  · simpa [userSummaryOf] using sumGroup_likes_received snap hk
  · simpa [userSummaryOf] using sumGroup_comments_received snap hk
  · intro l hl hnone uid hmem
    simp only [List.mem_map, List.mem_flatMap, List.mem_filter, decide_eq_true_eq] at hmem
    obtain ⟨l2, ⟨p, _, hl2, hl2pid⟩, hid⟩ := hmem
    have heq : l2 = l := List.inj_on_of_nodup_map hlid hl2 hl hid
    rw [heq, hnone] at hl2pid
    cases hl2pid

/-- Concrete snapshot for C10: user 1 owns post 10; like 100 targets the post
itself, like 101 targets comment 200 (which sits on user 1's post) and has a
`NULL` post reference. -/
def summarySnap : Snapshot :=
  { users := [⟨1, "a", "A", none, 0, true⟩, ⟨2, "b", "B", none, 0, true⟩,
      ⟨3, "c", "C", none, 0, true⟩]
    posts := [⟨10, 1, "p", none, 0, true⟩]
    comments := [⟨200, 10, 2, none, "nice", 0⟩]
    likes := [⟨100, some 10, none, 2, 0⟩, ⟨101, none, some 200, 3, 0⟩]
    follows := [] }

/-- Fallback row for extracting concrete summary rows. -/
def defaultSummaryRow : UserSummaryRow := ⟨0, "", 0, 0, 0, 0, 0, none, none⟩

/-- The first row (highest `likes_received`) of the summary on `summarySnap`. -/
def summaryRow0 : UserSummaryRow :=
  (get_user_engagement_summary summarySnap).getD 0 defaultSummaryRow

/-- Witness for C10: instantiated on `summarySnap`, where the comment-target
like 101 is counted toward nobody although the liked comment sits on user 1's
post. -/
theorem summary_received_own_posts_witness :
    (summaryRow0.likes_received = likesOnOwnPosts summarySnap summaryRow0.user_id ∧
     summaryRow0.comments_received = commentsOnOwnPosts summarySnap summaryRow0.user_id ∧
     ∀ l ∈ summarySnap.likes, l.post_id = none → ∀ uid,
       l.like_id ∉ ((summarySnap.posts.filter (fun p => p.user_id = uid)).flatMap
         (fun p => summarySnap.likes.filter (fun l2 =>
           l2.post_id = some p.post_id))).map (·.like_id)) ∧
    summaryRow0.user_id = 1 ∧ summaryRow0.likes_received = 1 :=
  ⟨summary_received_own_posts summarySnap summaryRow0 (by decide) (by decide),
    by decide, by decide⟩

/-! ## ContributorRanker (`src/analytics/content.py`, `get_top_contributors`)

The query writes its lookback bound as `NOW() - INTERVAL ':days DAYS'`.
SQLAlchemy's `text()` treats the colon-parameter inside the string literal as
a bind parameter and the psycopg2 driver substitutes the supplied integer, so
the statement PostgreSQL executes reads `INTERVAL '30 DAYS'` (for
`days = 30`): the effective cutoff of every join condition is
`now - days * 86400`. -/

/-- One row of the five-way left join of `get_top_contributors`; every join
condition carries the window bound `event_time >= cutoff`. -/
structure ContribJoinRow where
  us : UserR
  po : Option PostR
  cm : Option CommentR
  lk : Option LikeR
  fo : Option FollowR
  f2 : Option FollowR
deriving DecidableEq, Repr

/-- The join of the `user_activity` CTE of `get_top_contributors`. -/
def contribJoinRows (snap : Snapshot) (cutoff : Int) : List ContribJoinRow :=
  snap.users.flatMap (fun u =>
    (leftJoin (snap.posts.filter (fun p =>
      p.user_id = u.user_id ∧ cutoff ≤ p.post_time))).flatMap (fun po =>
    (leftJoin (snap.comments.filter (fun c =>
      c.user_id = u.user_id ∧ cutoff ≤ c.comment_time))).flatMap (fun cm =>
    (leftJoin (snap.likes.filter (fun l =>
      l.user_id = u.user_id ∧ cutoff ≤ l.like_time))).flatMap (fun lk =>
    (leftJoin (snap.follows.filter (fun f =>
      f.follower_id = u.user_id ∧ cutoff ≤ f.follow_time))).flatMap (fun fo =>
    (leftJoin (snap.follows.filter (fun f =>
      f.followee_id = u.user_id ∧ cutoff ≤ f.follow_time))).map (fun f2 =>
      ⟨u, po, cm, lk, fo, f2⟩))))))

/-- The key of `GROUP BY u.user_id, u.username`. -/
def contribKey (r : ContribJoinRow) : Nat × String := (r.us.user_id, r.us.username)

/-- One result row of `get_top_contributors`. -/
structure ContribRow where
  user_id : Nat
  username : String
  post_count : Nat
  comment_count : Nat
  like_count : Nat
  new_following : Nat
  new_followers : Nat
  activity_score : Nat
deriving DecidableEq, Repr

/-- The aggregates of one group of the `user_activity` CTE, including the two
`COUNT(DISTINCT CASE WHEN follow_time >= cutoff THEN ... END)` counts and the
weighted `activity_score`. -/
def contribRowOf (g : List ContribJoinRow) (cutoff : Int) (k : Nat × String) :
    ContribRow :=
  let post_count := countDistinct (g.filterMap (fun r => r.po.map (·.post_id)))
  let comment_count := countDistinct (g.filterMap (fun r => r.cm.map (·.comment_id)))
  let like_count := countDistinct (g.filterMap (fun r => r.lk.map (·.like_id)))
  let new_following := countDistinct (g.filterMap (fun r => r.fo.bind (fun f =>
    if cutoff ≤ f.follow_time then some f.followee_id else none)))
  let new_followers := countDistinct (g.filterMap (fun r => r.f2.bind (fun f =>
    if cutoff ≤ f.follow_time then some f.follower_id else none)))
  { user_id := k.1, username := k.2,
    post_count := post_count, comment_count := comment_count,
    like_count := like_count, new_following := new_following,
    new_followers := new_followers,
    activity_score := post_count * 3 + comment_count * 2 + like_count * 1 +
      new_followers * 5 }

/-- The `user_activity` CTE: one row per `GROUP BY` key. -/
def user_activity (snap : Snapshot) (cutoff : Int) : List ContribRow :=
  let rows := contribJoinRows snap cutoff
  ((rows.map contribKey).dedup).map (fun k =>
    contribRowOf (rows.filter (fun r => contribKey r = k)) cutoff k)

/-- The final `ORDER BY activity_score DESC` of `get_top_contributors`. -/
def contribOrder (a b : ContribRow) : Prop :=
  b.activity_score ≤ a.activity_score

instance : DecidableRel contribOrder := fun a b =>
  inferInstanceAs (Decidable (b.activity_score ≤ a.activity_score))

instance : IsTotal ContribRow contribOrder :=
  ⟨fun a b => Nat.le_total b.activity_score a.activity_score⟩

instance : IsTrans ContribRow contribOrder :=
  ⟨fun _ _ _ hab hbc => Nat.le_trans hbc hab⟩

/-- Embedding of `ContentAnalyzer.get_top_contributors`: the `user_activity`
CTE ordered by `activity_score` descending, truncated by `LIMIT :limit`. -/
def get_top_contributors (snap : Snapshot) (now days : Int) (limit : Nat) :
    List ContribRow :=
  ((user_activity snap (now - days * 86400)).insertionSort contribOrder).take limit

/-- Specification-side count: distinct posts the user authored inside the
lookback window. -/
def postsInWindow (snap : Snapshot) (uid : Nat) (cutoff : Int) : Nat :=
  countDistinct ((snap.posts.filter (fun p =>
    p.user_id = uid ∧ cutoff ≤ p.post_time)).map (·.post_id))

/-- Specification-side count: distinct comments authored inside the window. -/
def commentsInWindow (snap : Snapshot) (uid : Nat) (cutoff : Int) : Nat :=
  countDistinct ((snap.comments.filter (fun c =>
    c.user_id = uid ∧ cutoff ≤ c.comment_time)).map (·.comment_id))

/-- Specification-side count: distinct likes authored inside the window. -/
def likesInWindow (snap : Snapshot) (uid : Nat) (cutoff : Int) : Nat :=
  countDistinct ((snap.likes.filter (fun l =>
    l.user_id = uid ∧ cutoff ≤ l.like_time)).map (·.like_id))

/-- Specification-side count: distinct followees of new follow edges created
by the user inside the window. -/
def newFollowing (snap : Snapshot) (uid : Nat) (cutoff : Int) : Nat :=
  countDistinct ((snap.follows.filter (fun f =>
    f.follower_id = uid ∧ cutoff ≤ f.follow_time)).map (·.followee_id))

/-- Specification-side count: distinct followers of new follow edges toward
the user inside the window. -/
def newFollowers (snap : Snapshot) (uid : Nat) (cutoff : Int) : Nat :=
  countDistinct ((snap.follows.filter (fun f =>
    f.followee_id = uid ∧ cutoff ≤ f.follow_time)).map (·.follower_id))

theorem mem_contribJoinRows {snap : Snapshot} {cutoff : Int} {r : ContribJoinRow} :
    r ∈ contribJoinRows snap cutoff ↔
      r.us ∈ snap.users ∧
      r.po ∈ leftJoin (snap.posts.filter (fun p =>
        p.user_id = r.us.user_id ∧ cutoff ≤ p.post_time)) ∧
      r.cm ∈ leftJoin (snap.comments.filter (fun c =>
        c.user_id = r.us.user_id ∧ cutoff ≤ c.comment_time)) ∧
      r.lk ∈ leftJoin (snap.likes.filter (fun l =>
        l.user_id = r.us.user_id ∧ cutoff ≤ l.like_time)) ∧
      r.fo ∈ leftJoin (snap.follows.filter (fun f =>
        f.follower_id = r.us.user_id ∧ cutoff ≤ f.follow_time)) ∧
      r.f2 ∈ leftJoin (snap.follows.filter (fun f =>
        f.followee_id = r.us.user_id ∧ cutoff ≤ f.follow_time)) := by
  obtain ⟨us, po, cm, lk, fo, f2⟩ := r
  simp only [contribJoinRows, List.mem_flatMap, List.mem_map, ContribJoinRow.mk.injEq]
  constructor
  · rintro ⟨us', hus', po', hpo', cm', hcm', lk', hlk', fo', hfo', f2', hf2',
      rfl, rfl, rfl, rfl, rfl, rfl⟩
    exact ⟨hus', hpo', hcm', hlk', hfo', hf2'⟩
  · rintro ⟨hus, hpo, hcm, hlk, hfo, hf2⟩
    exact ⟨us, hus, po, hpo, cm, hcm, lk, hlk, fo, hfo, f2, hf2,
      rfl, rfl, rfl, rfl, rfl, rfl⟩

theorem exists_row_of_contribKey {snap : Snapshot} {cutoff : Int} {k : Nat × String}
    (hk : k ∈ ((contribJoinRows snap cutoff).map contribKey).dedup) :
    ∃ r₀ ∈ contribJoinRows snap cutoff, contribKey r₀ = k := by
  have := List.mem_dedup.mp hk
  obtain ⟨r₀, hr₀, hkey⟩ := List.mem_map.mp this
  exact ⟨r₀, hr₀, hkey⟩

theorem contribGroup_post_count (snap : Snapshot) (cutoff : Int)
    {k : Nat × String}
    (hk : k ∈ ((contribJoinRows snap cutoff).map contribKey).dedup) :
    countDistinct (((contribJoinRows snap cutoff).filter
      (fun r => contribKey r = k)).filterMap (fun r => r.po.map (·.post_id))) =
      postsInWindow snap k.1 cutoff := by
  apply countDistinct_congr
  ext a
  simp only [List.mem_toFinset, List.mem_filterMap, List.mem_filter, decide_eq_true_eq,
    postsInWindow, List.mem_map, Option.map_eq_some']
  constructor
  · rintro ⟨r, ⟨hr, hkey⟩, p, hpo, rfl⟩
    have hJ := (mem_contribJoinRows.mp hr).2.1
    rw [hpo] at hJ
    have hp := List.mem_filter.mp (mem_leftJoin_some.mp hJ)
    have huid : r.us.user_id = k.1 := by rw [← hkey]; rfl
    have hp2 := hp.2
    simp only [decide_eq_true_eq] at hp2
    exact ⟨p, ⟨hp.1, by rw [← huid]; exact hp2.1, hp2.2⟩, rfl⟩
  · rintro ⟨p, ⟨hp1, hp2, hp3⟩, rfl⟩
    obtain ⟨r₀, hr₀, hkey₀⟩ := exists_row_of_contribKey hk
    have huid : r₀.us.user_id = k.1 := by rw [← hkey₀]; rfl
    have hcomps := mem_contribJoinRows.mp hr₀
    refine ⟨⟨r₀.us, some p, r₀.cm, r₀.lk, r₀.fo, r₀.f2⟩, ⟨?_, ?_⟩, p, rfl, rfl⟩
    · exact mem_contribJoinRows.mpr ⟨hcomps.1,
        mem_leftJoin_some.mpr (List.mem_filter.mpr ⟨hp1, by
          simp only [decide_eq_true_eq]; exact ⟨by rw [huid]; exact hp2, hp3⟩⟩),
        hcomps.2.2.1, hcomps.2.2.2.1, hcomps.2.2.2.2.1, hcomps.2.2.2.2.2⟩
    · rw [← hkey₀]; rfl

theorem contribGroup_comment_count (snap : Snapshot) (cutoff : Int)
    {k : Nat × String}
    (hk : k ∈ ((contribJoinRows snap cutoff).map contribKey).dedup) :
    countDistinct (((contribJoinRows snap cutoff).filter
      (fun r => contribKey r = k)).filterMap (fun r => r.cm.map (·.comment_id))) =
      commentsInWindow snap k.1 cutoff := by
  apply countDistinct_congr
  ext a
  simp only [List.mem_toFinset, List.mem_filterMap, List.mem_filter, decide_eq_true_eq,
    commentsInWindow, List.mem_map, Option.map_eq_some']
  constructor
  · rintro ⟨r, ⟨hr, hkey⟩, c, hcm, rfl⟩
    have hJ := (mem_contribJoinRows.mp hr).2.2.1
    rw [hcm] at hJ
    have hc := List.mem_filter.mp (mem_leftJoin_some.mp hJ)
    have huid : r.us.user_id = k.1 := by rw [← hkey]; rfl
    have hc2 := hc.2
    simp only [decide_eq_true_eq] at hc2
    exact ⟨c, ⟨hc.1, by rw [← huid]; exact hc2.1, hc2.2⟩, rfl⟩
  · rintro ⟨c, ⟨hc1, hc2, hc3⟩, rfl⟩
    obtain ⟨r₀, hr₀, hkey₀⟩ := exists_row_of_contribKey hk
    have huid : r₀.us.user_id = k.1 := by rw [← hkey₀]; rfl
    have hcomps := mem_contribJoinRows.mp hr₀
    refine ⟨⟨r₀.us, r₀.po, some c, r₀.lk, r₀.fo, r₀.f2⟩, ⟨?_, ?_⟩, c, rfl, rfl⟩
    · exact mem_contribJoinRows.mpr ⟨hcomps.1, hcomps.2.1,
        mem_leftJoin_some.mpr (List.mem_filter.mpr ⟨hc1, by
          simp only [decide_eq_true_eq]; exact ⟨by rw [huid]; exact hc2, hc3⟩⟩),
        hcomps.2.2.2.1, hcomps.2.2.2.2.1, hcomps.2.2.2.2.2⟩
    · rw [← hkey₀]; rfl

theorem contribGroup_like_count (snap : Snapshot) (cutoff : Int)
    {k : Nat × String}
    (hk : k ∈ ((contribJoinRows snap cutoff).map contribKey).dedup) :
    countDistinct (((contribJoinRows snap cutoff).filter
      (fun r => contribKey r = k)).filterMap (fun r => r.lk.map (·.like_id))) =
      likesInWindow snap k.1 cutoff := by
  apply countDistinct_congr
  ext a
  simp only [List.mem_toFinset, List.mem_filterMap, List.mem_filter, decide_eq_true_eq,
    likesInWindow, List.mem_map, Option.map_eq_some']
  constructor
  · rintro ⟨r, ⟨hr, hkey⟩, l, hlk, rfl⟩
    have hJ := (mem_contribJoinRows.mp hr).2.2.2.1
    rw [hlk] at hJ
    have hl := List.mem_filter.mp (mem_leftJoin_some.mp hJ)
    have huid : r.us.user_id = k.1 := by rw [← hkey]; rfl
    have hl2 := hl.2
    simp only [decide_eq_true_eq] at hl2
    exact ⟨l, ⟨hl.1, by rw [← huid]; exact hl2.1, hl2.2⟩, rfl⟩
  · rintro ⟨l, ⟨hl1, hl2, hl3⟩, rfl⟩
    obtain ⟨r₀, hr₀, hkey₀⟩ := exists_row_of_contribKey hk
    have huid : r₀.us.user_id = k.1 := by rw [← hkey₀]; rfl
    have hcomps := mem_contribJoinRows.mp hr₀
    refine ⟨⟨r₀.us, r₀.po, r₀.cm, some l, r₀.fo, r₀.f2⟩, ⟨?_, ?_⟩, l, rfl, rfl⟩
    · exact mem_contribJoinRows.mpr ⟨hcomps.1, hcomps.2.1, hcomps.2.2.1,
        mem_leftJoin_some.mpr (List.mem_filter.mpr ⟨hl1, by
          simp only [decide_eq_true_eq]; exact ⟨by rw [huid]; exact hl2, hl3⟩⟩),
        hcomps.2.2.2.2.1, hcomps.2.2.2.2.2⟩
    · rw [← hkey₀]; rfl

theorem contribGroup_new_following (snap : Snapshot) (cutoff : Int)
    {k : Nat × String}
    (hk : k ∈ ((contribJoinRows snap cutoff).map contribKey).dedup) :
    countDistinct (((contribJoinRows snap cutoff).filter
      (fun r => contribKey r = k)).filterMap (fun r => r.fo.bind (fun f =>
        if cutoff ≤ f.follow_time then some f.followee_id else none))) =
      newFollowing snap k.1 cutoff := by
  apply countDistinct_congr
  ext a
  simp only [List.mem_toFinset, List.mem_filterMap, List.mem_filter, decide_eq_true_eq,
    newFollowing, List.mem_map, Option.bind_eq_some]
  constructor
  · rintro ⟨r, ⟨hr, hkey⟩, f, hfo, hcase⟩
    have hJ := (mem_contribJoinRows.mp hr).2.2.2.2.1
    rw [hfo] at hJ
    have hf := List.mem_filter.mp (mem_leftJoin_some.mp hJ)
    have huid : r.us.user_id = k.1 := by rw [← hkey]; rfl
    have hf2 := hf.2
    simp only [decide_eq_true_eq] at hf2
    rw [if_pos hf2.2] at hcase
    cases hcase
    exact ⟨f, ⟨hf.1, by rw [← huid]; exact hf2.1, hf2.2⟩, rfl⟩
  · rintro ⟨f, ⟨hf1, hf2, hf3⟩, rfl⟩
    obtain ⟨r₀, hr₀, hkey₀⟩ := exists_row_of_contribKey hk
    have huid : r₀.us.user_id = k.1 := by rw [← hkey₀]; rfl
    have hcomps := mem_contribJoinRows.mp hr₀
    refine ⟨⟨r₀.us, r₀.po, r₀.cm, r₀.lk, some f, r₀.f2⟩, ⟨?_, ?_⟩, f, rfl, ?_⟩
    · exact mem_contribJoinRows.mpr ⟨hcomps.1, hcomps.2.1, hcomps.2.2.1,
        hcomps.2.2.2.1,
        mem_leftJoin_some.mpr (List.mem_filter.mpr ⟨hf1, by
          simp only [decide_eq_true_eq]; exact ⟨by rw [huid]; exact hf2, hf3⟩⟩),
        hcomps.2.2.2.2.2⟩
    · rw [← hkey₀]; rfl
    · rw [if_pos hf3]

theorem contribGroup_new_followers (snap : Snapshot) (cutoff : Int)
    {k : Nat × String}
    (hk : k ∈ ((contribJoinRows snap cutoff).map contribKey).dedup) :
    countDistinct (((contribJoinRows snap cutoff).filter
      (fun r => contribKey r = k)).filterMap (fun r => r.f2.bind (fun f =>
        if cutoff ≤ f.follow_time then some f.follower_id else none))) =
      newFollowers snap k.1 cutoff := by
  apply countDistinct_congr
  ext a
  simp only [List.mem_toFinset, List.mem_filterMap, List.mem_filter, decide_eq_true_eq,
    newFollowers, List.mem_map, Option.bind_eq_some]
  constructor
  · rintro ⟨r, ⟨hr, hkey⟩, f, hf2o, hcase⟩
    have hJ := (mem_contribJoinRows.mp hr).2.2.2.2.2
    rw [hf2o] at hJ
    have hf := List.mem_filter.mp (mem_leftJoin_some.mp hJ)
    have huid : r.us.user_id = k.1 := by rw [← hkey]; rfl
    have hfP := hf.2
    simp only [decide_eq_true_eq] at hfP
    rw [if_pos hfP.2] at hcase
    cases hcase
    exact ⟨f, ⟨hf.1, by rw [← huid]; exact hfP.1, hfP.2⟩, rfl⟩
  · rintro ⟨f, ⟨hf1, hf2, hf3⟩, rfl⟩
    obtain ⟨r₀, hr₀, hkey₀⟩ := exists_row_of_contribKey hk
    have huid : r₀.us.user_id = k.1 := by rw [← hkey₀]; rfl
    have hcomps := mem_contribJoinRows.mp hr₀
    refine ⟨⟨r₀.us, r₀.po, r₀.cm, r₀.lk, r₀.fo, some f⟩, ⟨?_, ?_⟩, f, rfl, ?_⟩
    · exact mem_contribJoinRows.mpr ⟨hcomps.1, hcomps.2.1, hcomps.2.2.1,
        hcomps.2.2.2.1, hcomps.2.2.2.2.1,
        mem_leftJoin_some.mpr (List.mem_filter.mpr ⟨hf1, by
          simp only [decide_eq_true_eq]; exact ⟨by rw [huid]; exact hf2, hf3⟩⟩)⟩
    · rw [← hkey₀]; rfl
    · rw [if_pos hf3]

/-- C3: every signal counted by `get_top_contributors` — posts, comments and
likes authored, new following and new followers — is restricted to events
whose timestamp lies within the lookback window `now - days * 86400`; an
event outside the window contributes to no count.  The weighted score is
formed from the windowed counts. -/
theorem top_contributors_windowed (snap : Snapshot) (now days : Int)
    (limit : Nat) (r : ContribRow)
    (h : r ∈ get_top_contributors snap now days limit) :
    r.post_count = postsInWindow snap r.user_id (now - days * 86400) ∧
    r.comment_count = commentsInWindow snap r.user_id (now - days * 86400) ∧
    r.like_count = likesInWindow snap r.user_id (now - days * 86400) ∧
    r.new_following = newFollowing snap r.user_id (now - days * 86400) ∧
    r.new_followers = newFollowers snap r.user_id (now - days * 86400) ∧
    r.activity_score = r.post_count * 3 + r.comment_count * 2 +
      r.like_count * 1 + r.new_followers * 5 := by
  have hua : r ∈ user_activity snap (now - days * 86400) := by
    have h1 : r ∈ (user_activity snap (now - days * 86400)).insertionSort
        contribOrder := List.take_subset _ _ h
    exact (List.mem_insertionSort contribOrder).mp h1
  simp only [user_activity, List.mem_map] at hua
  obtain ⟨k, hk, rfl⟩ := hua
  simp only [contribRowOf]
  exact ⟨contribGroup_post_count snap _ hk, contribGroup_comment_count snap _ hk,
    contribGroup_like_count snap _ hk, contribGroup_new_following snap _ hk,
    contribGroup_new_followers snap _ hk, trivial⟩

/-- Concrete snapshot for C3: user 1 has one in-window and one out-of-window
post, comment, like, new followee and new follower (window events at time 0,
stale events at time -3000000, cutoff -2592000). -/
def windowSnap : Snapshot :=
  { users := [⟨1, "w1", "W1", none, 0, true⟩, ⟨2, "w2", "W2", none, 0, true⟩,
      ⟨3, "w3", "W3", none, 0, true⟩]
    posts := [⟨1, 1, "in", none, 0, true⟩, ⟨2, 1, "out", none, -3000000, true⟩]
    comments := [⟨1, 1, 1, none, "cin", 0⟩, ⟨2, 1, 1, none, "cout", -3000000⟩]
    likes := [⟨1, some 1, none, 1, 0⟩, ⟨2, some 1, none, 1, -3000000⟩]
    follows := [⟨1, 2, 0⟩, ⟨1, 3, -3000000⟩, ⟨2, 1, 0⟩, ⟨3, 1, -3000000⟩] }

/-- Fallback contributor row. -/
def defaultContribRow : ContribRow := ⟨0, "", 0, 0, 0, 0, 0, 0⟩

/-- The top row of `get_top_contributors` on `windowSnap`. -/
def windowRow : ContribRow :=
  (get_top_contributors windowSnap 0 30 5).getD 0 defaultContribRow

/-- Witness for C3: on `windowSnap` every count of the top row is 1 — only
the in-window half of each event pair is counted — and the score is
`1*3 + 1*2 + 1*1 + 1*5 = 11`. -/
theorem top_contributors_windowed_witness :
    (windowRow.post_count = postsInWindow windowSnap windowRow.user_id (0 - 30 * 86400) ∧
     windowRow.comment_count = commentsInWindow windowSnap windowRow.user_id (0 - 30 * 86400) ∧
     windowRow.like_count = likesInWindow windowSnap windowRow.user_id (0 - 30 * 86400) ∧
     windowRow.new_following = newFollowing windowSnap windowRow.user_id (0 - 30 * 86400) ∧
     windowRow.new_followers = newFollowers windowSnap windowRow.user_id (0 - 30 * 86400) ∧
     windowRow.activity_score = windowRow.post_count * 3 + windowRow.comment_count * 2 +
       windowRow.like_count * 1 + windowRow.new_followers * 5) ∧
    windowRow.user_id = 1 ∧ windowRow.post_count = 1 ∧ windowRow.comment_count = 1 ∧
    windowRow.like_count = 1 ∧ windowRow.new_following = 1 ∧
    windowRow.new_followers = 1 ∧ windowRow.activity_score = 11 :=
  ⟨top_contributors_windowed windowSnap 0 30 5 windowRow (by decide),
    by decide, by decide, by decide, by decide, by decide, by decide, by decide⟩

/-- C7 (amended): `get_top_contributors` returns the `limit` users with the
highest `activity_score` in descending score order — every excluded user
scores no higher than any returned one — but the relative order of users with
equal scores is whatever order the underlying rows had: the code has no
user-id tie-break. -/
theorem top_contributors_order (snap : Snapshot) (now days : Int) (limit : Nat) :
    (get_top_contributors snap now days limit).Sorted contribOrder ∧
    (get_top_contributors snap now days limit).length =
      min limit (user_activity snap (now - days * 86400)).length ∧
    ∀ r1 ∈ get_top_contributors snap now days limit,
      ∀ r2 ∈ user_activity snap (now - days * 86400),
        r2 ∉ get_top_contributors snap now days limit →
          r2.activity_score ≤ r1.activity_score := by
  have hsorted : ((user_activity snap (now - days * 86400)).insertionSort
      contribOrder).Sorted contribOrder :=
    List.sorted_insertionSort contribOrder _
  refine ⟨?_, ?_, ?_⟩
  · exact List.Pairwise.sublist (List.take_sublist _ _) hsorted
  · simp only [get_top_contributors, List.length_take,
      (List.perm_insertionSort contribOrder _).length_eq]
  · intro r1 h1 r2 h2 hnot
    have h2s : r2 ∈ (user_activity snap (now - days * 86400)).insertionSort
        contribOrder := (List.mem_insertionSort contribOrder).mpr h2
    rw [← List.take_append_drop limit ((user_activity snap
      (now - days * 86400)).insertionSort contribOrder)] at h2s hsorted
    rcases List.mem_append.mp h2s with hmem | hmem
    · exact absurd hmem hnot
    · exact (List.pairwise_append.mp hsorted).2.2 r1 h1 r2 hmem

/-- Concrete snapshot for C7: two users with no activity, stored with the
larger user id first. -/
def orderSnap : Snapshot :=
  { users := [⟨2, "b", "B", none, 0, true⟩, ⟨1, "a", "A", none, 0, true⟩]
    posts := [], comments := [], likes := [], follows := [] }

/-- Counterexample to C7 as stated: both users have `activity_score = 0`, yet
user 2 is returned before user 1 — equal scores are not ordered by ascending
user id. -/
theorem top_contributors_tiebreak_counterexample :
    ((get_top_contributors orderSnap 0 30 5).map (fun r =>
      (r.user_id, r.activity_score))) = [(2, 0), (1, 0)] ∧ (1 : Nat) < 2 := by
  refine ⟨by decide, by decide⟩

/-- Concrete snapshot for the C7 witness: user 2 has one in-window post
(score 3), user 1 none (score 0); `limit = 1` excludes user 1. -/
def limitSnap : Snapshot :=
  { users := [⟨1, "a", "A", none, 0, true⟩, ⟨2, "b", "B", none, 0, true⟩]
    posts := [⟨1, 2, "p", none, 0, true⟩]
    comments := [], likes := [], follows := [] }

/-- Witness for C7: on `limitSnap` with `limit = 1` the returned list is
sorted, has length `min 1 2 = 1`, and the excluded user's score does not
exceed the returned user's. -/
theorem top_contributors_order_witness :
    (get_top_contributors limitSnap 0 30 1).Sorted contribOrder ∧
    (get_top_contributors limitSnap 0 30 1).length =
      min 1 (user_activity limitSnap (0 - 30 * 86400)).length ∧
    ((user_activity limitSnap (0 - 30 * 86400)).getD 0 defaultContribRow).activity_score ≤
      ((get_top_contributors limitSnap 0 30 1).getD 0 defaultContribRow).activity_score := by
  obtain ⟨h1, h2, h3⟩ := top_contributors_order limitSnap 0 30 1
  exact ⟨h1, h2, h3 _ (by decide) _ (by decide) (by decide)⟩

/-! ## ThreadAnalyzer (`src/analytics/content.py`, `analyze_thread_depth`)

The recursive CTE `comment_threads` starts from the top-level comments at
depth 1 and repeatedly joins `comments c ON c.parent_comment_id =
ct.comment_id`, incrementing the depth.  `ctFrontier snap n` is the working
table after `n` recursive steps; the CTE's union is `commentThreads`.  The
iteration is materialised for `length comments + 2` levels, enough to contain
every row the CTE can derive on a snapshot whose parent chains resolve
(`wellFormed`). -/

/-- The working table of the recursive CTE after `n` steps: level 0 holds the
top-level comments, level `n + 1` holds one row per (comment, matching
parent-row-at-level-`n`) pair, exactly like the SQL join. -/
def ctFrontier (snap : Snapshot) : Nat → List CommentR
  | 0 => snap.comments.filter (fun c => c.parent_comment_id = none)
  | n + 1 => snap.comments.flatMap (fun c =>
      ((ctFrontier snap n).filter
        (fun p => c.parent_comment_id = some p.comment_id)).map (fun _ => c))

/-- The rows `(comment, depth)` of the `comment_threads` CTE. -/
def commentThreads (snap : Snapshot) : List (CommentR × Nat) :=
  (List.range (snap.comments.length + 2)).flatMap (fun n =>
    (ctFrontier snap n).map (fun c => (c, n + 1)))

/-- Specification-side depth: length of the parent-link chain of a comment —
`1` for a comment with no parent, `depth(parent) + 1` otherwise — computed by
chasing parent ids with bounded fuel (`none` when the chain does not resolve,
i.e. a parent is missing or the links cycle). -/
def chainDepthF (snap : Snapshot) : Nat → CommentR → Option Nat
  | fuel, c =>
    match c.parent_comment_id with
    | none => some 1
    | some pid =>
      match fuel with
      | 0 => none
      | fuel + 1 =>
        match snap.comments.find? (fun p => p.comment_id = pid) with
        | none => none
        | some p => (chainDepthF snap fuel p).map (· + 1)

/-- The parent-link chain length with enough fuel for any resolving chain. -/
def chainDepth (snap : Snapshot) (c : CommentR) : Option Nat :=
  chainDepthF snap (snap.comments.length + 1) c

/-- A snapshot is well-formed when every comment's parent chain resolves:
parents exist and the links are acyclic. -/
def wellFormed (snap : Snapshot) : Prop :=
  ∀ c ∈ snap.comments, (chainDepth snap c).isSome

instance : DecidablePred wellFormed := fun snap =>
  inferInstanceAs (Decidable (∀ c ∈ snap.comments, (chainDepth snap c).isSome))

theorem ctFrontier_subset (snap : Snapshot) (n : Nat) :
    ∀ c ∈ ctFrontier snap n, c ∈ snap.comments := by
  intro c hc
  cases n with
  | zero => exact (List.mem_filter.mp hc).1
  | succ n =>
    simp only [ctFrontier, List.mem_flatMap, List.mem_map] at hc
    obtain ⟨c', hc', _, _, rfl⟩ := hc
    exact hc'

theorem mem_ctFrontier_succ {snap : Snapshot} {n : Nat} {c : CommentR} :
    c ∈ ctFrontier snap (n + 1) ↔
      c ∈ snap.comments ∧ ∃ p ∈ ctFrontier snap n,
        c.parent_comment_id = some p.comment_id := by
  simp only [ctFrontier, List.mem_flatMap, List.mem_map, List.mem_filter,
    decide_eq_true_eq]
  constructor
  · rintro ⟨c', hc', p, ⟨hp, hpar⟩, rfl⟩
    exact ⟨hc', p, hp, hpar⟩
  · rintro ⟨hc, p, hp, hpar⟩
    exact ⟨c, hc, p, ⟨hp, hpar⟩, rfl⟩

theorem mem_ctFrontier_zero {snap : Snapshot} {c : CommentR} :
    c ∈ ctFrontier snap 0 ↔ c ∈ snap.comments ∧ c.parent_comment_id = none := by
  simp [ctFrontier, List.mem_filter]

theorem chainDepthF_none_eq {snap : Snapshot} {fuel : Nat} {c : CommentR}
    (hpar : c.parent_comment_id = none) : chainDepthF snap fuel c = some 1 := by
  rw [chainDepthF, hpar]

theorem chainDepthF_some_eq {snap : Snapshot} {fuel : Nat} {c : CommentR}
    {pid : Nat} (hpar : c.parent_comment_id = some pid) :
    chainDepthF snap (fuel + 1) c =
      match snap.comments.find? (fun p => p.comment_id = pid) with
      | none => none
      | some p => (chainDepthF snap fuel p).map (· + 1) := by
  rw [chainDepthF, hpar]

theorem chainDepthF_zero_some {snap : Snapshot} {c : CommentR} {pid : Nat}
    (hpar : c.parent_comment_id = some pid) : chainDepthF snap 0 c = none := by
  rw [chainDepthF, hpar]

theorem chainDepthF_pos {snap : Snapshot} {fuel : Nat} {c : CommentR} {d : Nat}
    (h : chainDepthF snap fuel c = some d) : 1 ≤ d := by
  rcases hpar : c.parent_comment_id with _ | pid
  · rw [chainDepthF_none_eq hpar] at h
    simp only [Option.some.injEq] at h
    omega
  · rcases fuel with _ | fuel
    · rw [chainDepthF_zero_some hpar] at h
      cases h
    · rw [chainDepthF_some_eq hpar] at h
      rcases hfind : snap.comments.find? (fun p => p.comment_id = pid) with _ | p
      · rw [hfind] at h; cases h
      · rw [hfind] at h
        simp only [Option.map_eq_some'] at h
        omega

theorem chainDepthF_le {snap : Snapshot} {fuel : Nat} {c : CommentR} {d : Nat}
    (h : chainDepthF snap fuel c = some d) : d ≤ fuel + 1 := by
  induction fuel generalizing c d with
  | zero =>
    rcases hpar : c.parent_comment_id with _ | pid
    · rw [chainDepthF_none_eq hpar] at h
      simp only [Option.some.injEq] at h
      omega
    · rw [chainDepthF_zero_some hpar] at h
      cases h
  | succ fuel ih =>
    rcases hpar : c.parent_comment_id with _ | pid
    · rw [chainDepthF_none_eq hpar] at h
      simp only [Option.some.injEq] at h
      omega
    · rw [chainDepthF_some_eq hpar] at h
      rcases hfind : snap.comments.find? (fun p => p.comment_id = pid) with _ | p
      · rw [hfind] at h; cases h
      · rw [hfind] at h
        simp only [Option.map_eq_some'] at h
        obtain ⟨dp, hdp, rfl⟩ := h
        have := ih hdp
        omega

theorem chainDepthF_mono {snap : Snapshot} {fuel fuel' : Nat} {c : CommentR}
    {d : Nat} (h : chainDepthF snap fuel c = some d) (hle : fuel ≤ fuel') :
    chainDepthF snap fuel' c = some d := by
  induction fuel generalizing c d fuel' with
  | zero =>
    rcases hpar : c.parent_comment_id with _ | pid
    · rw [chainDepthF_none_eq hpar] at h
      rw [chainDepthF_none_eq hpar]
      exact h
    · rw [chainDepthF_zero_some hpar] at h
      cases h
  | succ fuel ih =>
    rcases hpar : c.parent_comment_id with _ | pid
    · rw [chainDepthF_none_eq hpar] at h
      rw [chainDepthF_none_eq hpar]
      exact h
    · rw [chainDepthF_some_eq hpar] at h
      rcases fuel' with _ | fuel'
      · omega
      rw [chainDepthF_some_eq hpar]
      rcases hfind : snap.comments.find? (fun p => p.comment_id = pid) with _ | p
      · rw [hfind] at h; cases h
      · rw [hfind] at h
        simp only [hfind]
        simp only [Option.map_eq_some'] at h
        obtain ⟨dp, hdp, rfl⟩ := h
        rw [ih hdp (by omega)]
        rfl

theorem ctFrontier_chainDepthF (snap : Snapshot)
    (hnodup : (snap.comments.map (·.comment_id)).Nodup) :
    ∀ n, ∀ c ∈ ctFrontier snap n, ∀ fuel, n + 1 ≤ fuel + 1 →
      chainDepthF snap fuel c = some (n + 1) := by
  intro n
  induction n with
  | zero =>
    intro c hc fuel _
    obtain ⟨_, hpar⟩ := mem_ctFrontier_zero.mp hc
    rw [chainDepthF, hpar]
  | succ n ih =>
    intro c hc fuel hfuel
    obtain ⟨hcmem, p, hp, hpar⟩ := mem_ctFrontier_succ.mp hc
    rcases fuel with _ | fuel
    · omega
    rw [chainDepthF_some_eq hpar]
    simp only [find?_eq_of_nodup_key (·.comment_id) hnodup
      (ctFrontier_subset snap n p hp) rfl, ih p hp fuel (by omega)]
    rfl

theorem chainDepthF_ctFrontier (snap : Snapshot) :
    ∀ fuel c d, chainDepthF snap fuel c = some d → c ∈ snap.comments →
      c ∈ ctFrontier snap (d - 1) := by
  intro fuel
  induction fuel with
  | zero =>
    intro c d h hc
    rcases hpar : c.parent_comment_id with _ | pid
    · rw [chainDepthF_none_eq hpar] at h
      simp only [Option.some.injEq] at h
      subst h
      exact mem_ctFrontier_zero.mpr ⟨hc, hpar⟩
    · rw [chainDepthF_zero_some hpar] at h
      cases h
  | succ fuel ih =>
    intro c d h hc
    rcases hpar : c.parent_comment_id with _ | pid
    · rw [chainDepthF_none_eq hpar] at h
      simp only [Option.some.injEq] at h
      subst h
      exact mem_ctFrontier_zero.mpr ⟨hc, hpar⟩
    · rw [chainDepthF_some_eq hpar] at h
      rcases hfind : snap.comments.find? (fun p => p.comment_id = pid) with _ | p
      · rw [hfind] at h; cases h
      · rw [hfind] at h
        simp only [Option.map_eq_some'] at h
        obtain ⟨dp, hdp, rfl⟩ := h
        have hppos := chainDepthF_pos hdp
        have hpmem := List.mem_of_find?_eq_some hfind
        have hpid : p.comment_id = pid := by
          have := List.find?_some hfind
          simpa using this
        have hpf := ih p dp hdp hpmem
        have : c ∈ ctFrontier snap ((dp - 1) + 1) :=
          mem_ctFrontier_succ.mpr ⟨hc, p, hpf, by rw [hpar, hpid]⟩
        have heq : (dp - 1) + 1 = dp + 1 - 1 := by omega
        rwa [heq] at this

theorem mem_commentThreads_iff (snap : Snapshot)
    (hnodup : (snap.comments.map (·.comment_id)).Nodup)
    (hwf : wellFormed snap) {c : CommentR} {d : Nat} :
    (c, d) ∈ commentThreads snap ↔
      (c ∈ snap.comments ∧ chainDepth snap c = some d) := by
  constructor
  · intro h
    simp only [commentThreads, List.mem_flatMap, List.mem_map, List.mem_range,
      Prod.mk.injEq] at h
    obtain ⟨n, hn, c', hc', heq1, heq2⟩ := h
    subst heq1
    subst heq2
    have hcmem := ctFrontier_subset snap n c' hc'
    refine ⟨hcmem, ?_⟩
    obtain ⟨d', hd'⟩ := Option.isSome_iff_exists.mp (hwf c' hcmem)
    have h1 : chainDepthF snap (max (snap.comments.length + 1) n) c' = some (n + 1) :=
      ctFrontier_chainDepthF snap hnodup n c' hc' _ (by omega)
    have h2 : chainDepthF snap (max (snap.comments.length + 1) n) c' = some d' :=
      chainDepthF_mono hd' (le_max_left _ _)
    rw [h1] at h2
    cases h2
    exact hd'
  · rintro ⟨hc, hd⟩
    have hpos := chainDepthF_pos hd
    have hle := chainDepthF_le hd
    have hfr := chainDepthF_ctFrontier snap _ c d hd hc
    simp only [commentThreads, List.mem_flatMap, List.mem_map, List.mem_range,
      Prod.mk.injEq]
    exact ⟨d - 1, by omega, c, hfr, rfl, by omega⟩

/-! ### The `analyze_thread_depth` query around the CTE -/

/-- One row of `posts JOIN comment_threads JOIN users`. -/
structure ThreadJoinRow where
  p : PostR
  c : CommentR
  depth : Nat
  u : UserR
deriving DecidableEq, Repr

/-- The join of the outer query of `analyze_thread_depth`. -/
def threadJoinRows (snap : Snapshot) : List ThreadJoinRow :=
  snap.posts.flatMap (fun p =>
    ((commentThreads snap).filter (fun cd => cd.1.post_id = p.post_id)).flatMap (fun cd =>
      (snap.users.filter (fun u => u.user_id = cd.1.user_id)).map (fun u =>
        ⟨p, cd.1, cd.2, u⟩)))

/-- The key of `GROUP BY p.post_id, p.post_text`. -/
def threadKey (r : ThreadJoinRow) : Nat × String := (r.p.post_id, r.p.post_text)

/-- One result row of `analyze_thread_depth`. -/
structure ThreadRow where
  post_id : Nat
  post_preview : String
  total_comments : Nat
  max_thread_depth : Nat
  avg_thread_depth : ℚ
  unique_participants : Nat
  participants : String
deriving DecidableEq, Repr

/-- The aggregates of one group: `COUNT(DISTINCT ct.comment_id)`,
`MAX(ct.depth)`, `ROUND(AVG(ct.depth), 2)`, `COUNT(DISTINCT ct.user_id)` and
the comma-separated sorted distinct usernames; `post_preview` is
`SUBSTRING(p.post_text, 1, 50)`. -/
def mkThreadRow (g : List ThreadJoinRow) (k : Nat × String) : ThreadRow :=
  { post_id := k.1,
    post_preview := k.2.take 50,
    total_comments := countDistinct (g.map (fun r => r.c.comment_id)),
    max_thread_depth := listMax (g.map (·.depth)),
    avg_thread_depth := round2 ((g.map (fun r => (r.depth : ℚ))).sum / (g.length : ℚ)),
    unique_participants := countDistinct (g.map (fun r => r.c.user_id)),
    participants := String.intercalate ", "
      (((g.map (fun r => r.u.username)).dedup).insertionSort (fun a b => a ≤ b)) }

/-- The `ORDER BY max_thread_depth DESC, total_comments DESC` of
`analyze_thread_depth` — the query has no further sort key. -/
def threadOrder (a b : ThreadRow) : Prop :=
  b.max_thread_depth < a.max_thread_depth ∨
    (a.max_thread_depth = b.max_thread_depth ∧ b.total_comments ≤ a.total_comments)

instance : DecidableRel threadOrder := fun a b =>
  inferInstanceAs (Decidable (b.max_thread_depth < a.max_thread_depth ∨
    (a.max_thread_depth = b.max_thread_depth ∧
      b.total_comments ≤ a.total_comments)))

instance : IsTotal ThreadRow threadOrder :=
  ⟨fun _ _ => by unfold threadOrder; omega⟩

instance : IsTrans ThreadRow threadOrder :=
  ⟨fun _ _ _ hab hbc => by unfold threadOrder at *; omega⟩

/-- Embedding of `ContentAnalyzer.analyze_thread_depth`: group the join rows
by `(post_id, post_text)`, keep groups with `MAX(depth) >= min_depth`
(`HAVING`), and sort by max depth then total comments, both descending. -/
def analyze_thread_depth (snap : Snapshot) (min_depth : Nat) : List ThreadRow :=
  let rows := threadJoinRows snap
  let grouped := ((rows.map threadKey).dedup).map (fun k =>
    mkThreadRow (rows.filter (fun r => threadKey r = k)) k)
  (grouped.filter (fun t => min_depth ≤ t.max_thread_depth)).insertionSort threadOrder

/-- Specification-side maximum: the longest parent-link path among the
comments of a post (`0` when the post has none). -/
def postMaxDepth (snap : Snapshot) (pid : Nat) : Nat :=
  listMax ((snap.comments.filter (fun c => c.post_id = pid)).map
    (fun c => (chainDepth snap c).getD 0))

theorem foldl_max_le {l : List Nat} {init b : Nat} :
    l.foldl Nat.max init ≤ b ↔ init ≤ b ∧ ∀ a ∈ l, a ≤ b := by
  induction l generalizing init with
  | nil => simp
  | cons x xs ih =>
    rw [List.foldl_cons, ih]
    constructor
    · rintro ⟨h1, h3⟩
      rw [Nat.max_le] at h1
      exact ⟨h1.1, fun a ha => by
        rcases List.mem_cons.mp ha with rfl | ha
        exacts [h1.2, h3 a ha]⟩
    · rintro ⟨h1, h2⟩
      exact ⟨Nat.max_le.mpr ⟨h1, h2 x (List.mem_cons_self x xs)⟩,
        fun a ha => h2 a (List.mem_cons_of_mem x ha)⟩

theorem listMax_le_iff {l : List Nat} {b : Nat} :
    listMax l ≤ b ↔ ∀ a ∈ l, a ≤ b := by
  unfold listMax
  rw [foldl_max_le]
  simp

theorem le_listMax {l : List Nat} {a : Nat} (h : a ∈ l) : a ≤ listMax l :=
  (listMax_le_iff.mp le_rfl) a h

theorem mem_threadJoinRows {snap : Snapshot} {r : ThreadJoinRow} :
    r ∈ threadJoinRows snap ↔
      r.p ∈ snap.posts ∧ (r.c, r.depth) ∈ commentThreads snap ∧
      r.c.post_id = r.p.post_id ∧ r.u ∈ snap.users ∧
      r.u.user_id = r.c.user_id := by
  obtain ⟨p, c, depth, u⟩ := r
  simp only [threadJoinRows, List.mem_flatMap, List.mem_map, List.mem_filter,
    decide_eq_true_eq, ThreadJoinRow.mk.injEq]
  constructor
  · rintro ⟨p', hp', cd, ⟨hcd, hpid⟩, u', ⟨hu', huid⟩, rfl, rfl, rfl, rfl⟩
    exact ⟨hp', by simpa using hcd, hpid, hu', huid⟩
  · rintro ⟨hp, hcd, hpid, hu, huid⟩
    exact ⟨p, hp, (c, depth), ⟨hcd, hpid⟩, u, ⟨hu, huid⟩, rfl, rfl, rfl, rfl⟩

theorem chainDepth_parent (snap : Snapshot)
    (hnodup : (snap.comments.map (·.comment_id)).Nodup)
    (hwf : wellFormed snap) {c : CommentR} (hc : c ∈ snap.comments)
    {pid : Nat} (hpar : c.parent_comment_id = some pid)
    {p : CommentR} (hp : p ∈ snap.comments) (hpidp : p.comment_id = pid) :
    chainDepth snap c = (chainDepth snap p).map (· + 1) := by
  obtain ⟨d, hd⟩ := Option.isSome_iff_exists.mp (hwf c hc)
  have hpos := chainDepthF_pos hd
  have hfr := chainDepthF_ctFrontier snap _ c d hd hc
  have hd2 : 2 ≤ d := by
    by_contra hlt
    have hd1 : d = 1 := by omega
    subst hd1
    have := mem_ctFrontier_zero.mp (by simpa using hfr)
    rw [this.2] at hpar
    cases hpar
  have hstep : d - 1 = (d - 2) + 1 := by omega
  rw [hstep] at hfr
  obtain ⟨_, p', hp', hpar'⟩ := mem_ctFrontier_succ.mp hfr
  have hp'mem := ctFrontier_subset snap _ p' hp'
  have hp'id : p'.comment_id = pid := by
    rw [hpar] at hpar'
    simpa using hpar'.symm
  have hpp : p' = p :=
    List.inj_on_of_nodup_map hnodup hp'mem hp (by rw [hp'id, hpidp])
  subst hpp
  have hdp : chainDepth snap p' = some (d - 1) := by
    obtain ⟨dp, hdp⟩ := Option.isSome_iff_exists.mp (hwf p' hp'mem)
    have h1 : chainDepthF snap (max (snap.comments.length + 1) (d - 2)) p' =
        some ((d - 2) + 1) :=
      ctFrontier_chainDepthF snap hnodup _ p' hp' _ (by omega)
    have h2 : chainDepthF snap (max (snap.comments.length + 1) (d - 2)) p' =
        some dp := chainDepthF_mono hdp (le_max_left _ _)
    rw [h1] at h2
    cases h2
    rw [hdp]
    congr 1
    omega
  rw [hd, hdp]
  simp only [Option.map_some']
  congr 1
  omega

/-- C1: on a snapshot with unique comment ids, resolving (acyclic,
parent-present) comment chains and existing comment authors, the
`comment_threads` CTE assigns to every comment exactly its parent-link depth
(`1` for a comment with no parent, parent's depth plus one otherwise), and
every reported row's `max_thread_depth` is the longest parent-link path among
the post's comments. -/
theorem thread_depth_spec (snap : Snapshot) (min_depth : Nat)
    (hnodup : (snap.comments.map (·.comment_id)).Nodup)
    (hwf : wellFormed snap)
    (huser : ∀ c ∈ snap.comments, ∃ u ∈ snap.users, u.user_id = c.user_id) :
    (∀ c ∈ snap.comments, (c, (chainDepth snap c).getD 0) ∈ commentThreads snap ∧
      ∀ d, ((c, d) ∈ commentThreads snap ↔ chainDepth snap c = some d)) ∧
    (∀ c ∈ snap.comments, c.parent_comment_id = none →
      chainDepth snap c = some 1) ∧
    (∀ c ∈ snap.comments, ∀ pid, c.parent_comment_id = some pid →
      ∀ p ∈ snap.comments, p.comment_id = pid →
        chainDepth snap c = (chainDepth snap p).map (· + 1)) ∧
    (∀ row ∈ analyze_thread_depth snap min_depth,
      row.max_thread_depth = postMaxDepth snap row.post_id) := by
  refine ⟨?_, ?_, ?_, ?_⟩
  · intro c hc
    obtain ⟨d, hd⟩ := Option.isSome_iff_exists.mp (hwf c hc)
    constructor
    · rw [hd]
      exact (mem_commentThreads_iff snap hnodup hwf).mpr ⟨hc, hd⟩
    · intro d'
      constructor
      · intro h
        exact ((mem_commentThreads_iff snap hnodup hwf).mp h).2
      · intro h
        exact (mem_commentThreads_iff snap hnodup hwf).mpr ⟨hc, h⟩
  · intro c _ hpar
    exact chainDepthF_none_eq hpar
  · intro c hc pid hpar p hp hpid
    exact chainDepth_parent snap hnodup hwf hc hpar hp hpid
  · intro row hrow
    simp only [analyze_thread_depth, List.mem_insertionSort, List.mem_filter,
      List.mem_map] at hrow
    obtain ⟨⟨k, hk, rfl⟩, _⟩ := hrow
    have hex : ∃ r₀ ∈ threadJoinRows snap, threadKey r₀ = k := by
      have := List.mem_dedup.mp hk
      obtain ⟨r₀, hr₀, hkey⟩ := List.mem_map.mp this
      exact ⟨r₀, hr₀, hkey⟩
    obtain ⟨r₀, hr₀, hkey₀⟩ := hex
    simp only [mkThreadRow]
    apply Nat.le_antisymm
    · rw [listMax_le_iff]
      intro a ha
      obtain ⟨r, hr, rfl⟩ := List.mem_map.mp ha
      have hrf := List.mem_filter.mp hr
      have hcomps := mem_threadJoinRows.mp hrf.1
      have hkey : threadKey r = k := by simpa using hrf.2
      have hcd := ((mem_commentThreads_iff snap hnodup hwf).mp hcomps.2.1)
      apply le_listMax
      apply List.mem_map.mpr
      refine ⟨r.c, List.mem_filter.mpr ⟨hcd.1, ?_⟩, ?_⟩
      · simp only [decide_eq_true_eq]
        rw [hcomps.2.2.1, ← hkey]
        rfl
      · rw [hcd.2]
        rfl
    · rw [postMaxDepth, listMax_le_iff]
      intro a ha
      obtain ⟨c, hcf, rfl⟩ := List.mem_map.mp ha
      have hcmem := (List.mem_filter.mp hcf).1
      have hcpid : c.post_id = k.1 := by
        have := (List.mem_filter.mp hcf).2
        simpa using this
      obtain ⟨d, hd⟩ := Option.isSome_iff_exists.mp (hwf c hcmem)
      obtain ⟨u, hu, huid⟩ := huser c hcmem
      have hkey₀' : r₀.p.post_id = k.1 ∧ r₀.p.post_text = k.2 := by
        rw [← hkey₀]
        exact ⟨rfl, rfl⟩
      have hrow' : (⟨r₀.p, c, d, u⟩ : ThreadJoinRow) ∈ threadJoinRows snap :=
        mem_threadJoinRows.mpr ⟨(mem_threadJoinRows.mp hr₀).1,
          (mem_commentThreads_iff snap hnodup hwf).mpr ⟨hcmem, hd⟩,
          by rw [hcpid, hkey₀'.1], hu, huid⟩
      rw [hd]
      apply le_listMax
      apply List.mem_map.mpr
      refine ⟨⟨r₀.p, c, d, u⟩, List.mem_filter.mpr ⟨hrow', ?_⟩, rfl⟩
      simp only [decide_eq_true_eq, threadKey]
      rw [hkey₀'.1, hkey₀'.2]

/-- C6 (amended): the result of `analyze_thread_depth` is sorted by max
thread depth descending, then total comment count descending; the query has
no third sort key, so the order among posts that tie on both is not
determined by the code. -/
theorem thread_order_sorted (snap : Snapshot) (min_depth : Nat) :
    (analyze_thread_depth snap min_depth).Sorted threadOrder := by
  simp only [analyze_thread_depth]
  exact List.sorted_insertionSort threadOrder _

/-- Concrete snapshot for C6: two posts, each with one top-level comment, the
post with the larger id stored first. -/
def tieSnap : Snapshot :=
  { users := [⟨1, "x", "X", none, 0, true⟩]
    posts := [⟨2, 1, "pb", none, 0, true⟩, ⟨1, 1, "pa", none, 0, true⟩]
    comments := [⟨1, 2, 1, none, "c1", 0⟩, ⟨2, 1, 1, none, "c2", 0⟩]
    likes := []
    follows := [] }

/-- Counterexample to C6 as stated: both posts tie on max depth 1 and total
comments 1, yet post 2 precedes post 1 — the output is not ordered by post id
ascending on ties, so the claimed total order does not hold. -/
theorem thread_order_tie_counterexample :
    ((analyze_thread_depth tieSnap 1).map (fun r =>
      (r.post_id, r.max_thread_depth, r.total_comments))) =
      [(2, 1, 1), (1, 1, 1)] ∧ (1 : Nat) < 2 :=
  ⟨by decide, by decide⟩

/-- Concrete snapshot for C1: one post with a three-deep comment chain. -/
def chainSnap : Snapshot :=
  { users := [⟨1, "x", "X", none, 0, true⟩]
    posts := [⟨1, 1, "p", none, 0, true⟩]
    comments := [⟨1, 1, 1, none, "root", 0⟩, ⟨2, 1, 1, some 1, "reply", 0⟩,
      ⟨3, 1, 1, some 2, "reply2", 0⟩]
    likes := []
    follows := [] }

/-- Witness for C1: on a three-deep chain the depths are 1, 2, 3 and the
reported `max_thread_depth` is 3. -/
theorem thread_depth_spec_witness :
    ((∀ c ∈ chainSnap.comments,
        (c, (chainDepth chainSnap c).getD 0) ∈ commentThreads chainSnap ∧
        ∀ d, ((c, d) ∈ commentThreads chainSnap ↔ chainDepth chainSnap c = some d)) ∧
      (∀ c ∈ chainSnap.comments, c.parent_comment_id = none →
        chainDepth chainSnap c = some 1) ∧
      (∀ c ∈ chainSnap.comments, ∀ pid, c.parent_comment_id = some pid →
        ∀ p ∈ chainSnap.comments, p.comment_id = pid →
          chainDepth chainSnap c = (chainDepth chainSnap p).map (· + 1)) ∧
      (∀ row ∈ analyze_thread_depth chainSnap 2,
        row.max_thread_depth = postMaxDepth chainSnap row.post_id)) ∧
    ((analyze_thread_depth chainSnap 2).map (fun r =>
      (r.post_id, r.max_thread_depth, r.total_comments))) = [(1, 3, 3)] ∧
    postMaxDepth chainSnap 1 = 3 :=
  ⟨thread_depth_spec chainSnap 2 (by decide) (by decide) (by decide),
    by decide, by decide⟩

/-! ## ControversyScorer (`src/analytics/content.py`,
`identify_controversial_posts`)

PostgreSQL's `STDDEV` is the sample standard deviation (`STDDEV_SAMP`):
sum of squared deviations divided by `N - 1`, `NULL` over a single row.  To
keep the embedding computable the rows carry the sample *variance* as an
exact rational (`stddev_sq`); the real-valued `stddev_comment_length` column
is `Real.sqrt` of it (`ContRow.stddevR`), and the `WHERE
stddev_comment_length >= :min_stddev` filter is embedded by the equivalent
rational condition `min_stddev ≤ 0 ∨ min_stddev² ≤ variance` (the
equivalence with `min_stddev ≤ sqrt variance` is `stddev_filter_iff`). -/

/-- The comment-text lengths of one `GROUP BY post_id` group
(`LENGTH(comment_text)`). -/
def commentLengths (snap : Snapshot) (pid : Nat) : List Nat :=
  (snap.comments.filter (fun c => c.post_id = pid)).map (fun c => c.comment_text.length)

/-- Sample variance: sum of squared deviations from the mean divided by
`N - 1`. -/
def sampleVariance (lens : List Nat) : ℚ :=
  let n : ℚ := lens.length
  let mean : ℚ := (lens.map (fun x => (x : ℚ))).sum / n
  ((lens.map (fun x => ((x : ℚ) - mean) ^ 2)).sum) / (n - 1)

/-- One row of the `comment_stats` CTE; `stddev_sq` is the sample variance,
`none` exactly when the group has a single row (PostgreSQL `STDDEV` returns
`NULL` there). -/
structure CommentStatsRow where
  post_id : Nat
  total_comments : Nat
  avg_comment_length : ℚ
  stddev_sq : Option ℚ
  unique_commenters : Nat
deriving DecidableEq, Repr

/-- The `comment_stats` CTE: group `comments` by `post_id`, aggregate, keep
groups with `COUNT(*) >= :min_comments` (`HAVING`). -/
def comment_stats (snap : Snapshot) (min_comments : Nat) : List CommentStatsRow :=
  (((snap.comments.map (·.post_id)).dedup).map (fun pid =>
    let lens := commentLengths snap pid
    ({ post_id := pid,
       total_comments := lens.length,
       avg_comment_length := (lens.map (fun x => (x : ℚ))).sum / (lens.length : ℚ),
       stddev_sq := if lens.length ≤ 1 then none else some (sampleVariance lens),
       unique_commenters :=
         countDistinct ((snap.comments.filter (fun c => c.post_id = pid)).map
           (·.user_id)) } : CommentStatsRow))).filter
    (fun r => min_comments ≤ r.total_comments)

/-- One row of the `reply_depth` CTE. -/
structure ReplyDepthRow where
  post_id : Nat
  reply_count : Nat
  avg_reply_length : ℚ
deriving DecidableEq, Repr

/-- The self-join `comments c1 JOIN comments c2 ON c1.comment_id =
c2.parent_comment_id` of the `reply_depth` CTE. -/
def replyJoin (snap : Snapshot) : List (CommentR × CommentR) :=
  snap.comments.flatMap (fun c1 =>
    (snap.comments.filter (fun c2 =>
      c2.parent_comment_id = some c1.comment_id)).map (fun c2 => (c1, c2)))

/-- The `reply_depth` CTE: replies grouped by the parent's `post_id`. -/
def reply_depth (snap : Snapshot) : List ReplyDepthRow :=
  ((replyJoin snap).map (fun r => r.1.post_id)).dedup.map (fun pid =>
    let g := (replyJoin snap).filter (fun r => r.1.post_id = pid)
    { post_id := pid,
      reply_count := g.length,
      avg_reply_length :=
        (g.map (fun r => (r.2.comment_text.length : ℚ))).sum / (g.length : ℚ) })

/-- One result row of `identify_controversial_posts`; `stddev_sq` carries the
sample variance of the comment lengths (the SQL column is its square root,
`ContRow.stddevR`). -/
structure ContRow where
  post_id : Nat
  post_text : String
  post_time : Int
  author : String
  total_comments : Nat
  unique_commenters : Nat
  avg_comment_length : ℚ
  stddev_sq : ℚ
  reply_count : Nat
  avg_reply_length : ℚ
deriving DecidableEq, Repr

/-- The real-valued `stddev_comment_length` column. -/
noncomputable def ContRow.stddevR (r : ContRow) : ℝ := Real.sqrt (r.stddev_sq : ℚ)

/-- The real-valued `controversy_score = stddev_comment_length *
total_comments` column. -/
noncomputable def ContRow.controversyR (r : ContRow) : ℝ :=
  Real.sqrt (r.stddev_sq : ℚ) * (r.total_comments : ℝ)

/-- The claim's dispersion: the sample standard deviation of the comment-text
lengths, defined as `0` when there is at most one comment. -/
noncomputable def sampleStdDev (lens : List Nat) : ℝ :=
  if lens.length ≤ 1 then 0 else Real.sqrt (sampleVariance lens : ℚ)

/-- The embedded `WHERE stddev_comment_length >= :min_stddev` condition, in
exact rational arithmetic (`NULL` compares to nothing and is dropped). -/
def stddevKeep (min_stddev : ℚ) : Option ℚ → Bool
  | none => false
  | some v => decide (min_stddev ≤ 0 ∨ min_stddev ^ 2 ≤ v)

/-- The rational filter agrees with the real comparison against the square
root. -/
theorem stddev_filter_iff (m v : ℚ) (hv : 0 ≤ v) :
    (m ≤ 0 ∨ m ^ 2 ≤ v) ↔ (m : ℝ) ≤ Real.sqrt (v : ℚ) := by
  rcases le_or_lt m 0 with hm | hm
  · simp only [hm, true_or, true_iff]
    calc (m : ℝ) ≤ 0 := by exact_mod_cast hm
    _ ≤ Real.sqrt (v : ℚ) := Real.sqrt_nonneg _
  · have hmR : (0 : ℝ) < (m : ℝ) := by exact_mod_cast hm
    have hvR : (0 : ℝ) ≤ ((v : ℚ) : ℝ) := by exact_mod_cast hv
    rw [or_iff_right (not_le.mpr hm), Real.le_sqrt hmR.le hvR]
    constructor
    · intro h
      exact_mod_cast h
    · intro h
      exact_mod_cast h

/-- The descending order on `controversy_score`, compared squared to stay in
rational arithmetic (`contOrder_iff_score` justifies the transformation). -/
def contOrder (a b : ContRow) : Prop :=
  b.stddev_sq * (b.total_comments : ℚ) ^ 2 ≤ a.stddev_sq * (a.total_comments : ℚ) ^ 2

instance : DecidableRel contOrder := fun a b =>
  inferInstanceAs (Decidable (b.stddev_sq * (b.total_comments : ℚ) ^ 2 ≤
    a.stddev_sq * (a.total_comments : ℚ) ^ 2))

/-- The squared comparison agrees with the real `controversy_score` order. -/
theorem contOrder_iff_score (a b : ContRow) (ha : 0 ≤ a.stddev_sq)
    (hb : 0 ≤ b.stddev_sq) :
    contOrder a b ↔ ContRow.controversyR b ≤ ContRow.controversyR a := by
  have haR : (0 : ℝ) ≤ (a.stddev_sq : ℚ) := by exact_mod_cast ha
  have hbR : (0 : ℝ) ≤ (b.stddev_sq : ℚ) := by exact_mod_cast hb
  have hna : (0 : ℝ) ≤ (a.total_comments : ℝ) := by positivity
  have hnb : (0 : ℝ) ≤ (b.total_comments : ℝ) := by positivity
  have hca : ContRow.controversyR a * ContRow.controversyR a =
      ((a.stddev_sq * (a.total_comments : ℚ) ^ 2 : ℚ) : ℝ) := by
    unfold ContRow.controversyR
    push_cast
    rw [show Real.sqrt (a.stddev_sq : ℚ) * (a.total_comments : ℝ) *
        (Real.sqrt (a.stddev_sq : ℚ) * (a.total_comments : ℝ)) =
        Real.sqrt (a.stddev_sq : ℚ) * Real.sqrt (a.stddev_sq : ℚ) *
          ((a.total_comments : ℝ) * (a.total_comments : ℝ)) by ring,
      Real.mul_self_sqrt haR]
    ring
  have hcb : ContRow.controversyR b * ContRow.controversyR b =
      ((b.stddev_sq * (b.total_comments : ℚ) ^ 2 : ℚ) : ℝ) := by
    unfold ContRow.controversyR
    push_cast
    rw [show Real.sqrt (b.stddev_sq : ℚ) * (b.total_comments : ℝ) *
        (Real.sqrt (b.stddev_sq : ℚ) * (b.total_comments : ℝ)) =
        Real.sqrt (b.stddev_sq : ℚ) * Real.sqrt (b.stddev_sq : ℚ) *
          ((b.total_comments : ℝ) * (b.total_comments : ℝ)) by ring,
      Real.mul_self_sqrt hbR]
    ring
  have hra : (0 : ℝ) ≤ ContRow.controversyR a :=
    mul_nonneg (Real.sqrt_nonneg _) hna
  have hrb : (0 : ℝ) ≤ ContRow.controversyR b :=
    mul_nonneg (Real.sqrt_nonneg _) hnb
  have hiff : ContRow.controversyR b ≤ ContRow.controversyR a ↔
      ContRow.controversyR b * ContRow.controversyR b ≤
        ContRow.controversyR a * ContRow.controversyR a :=
    mul_self_le_mul_self_iff hrb hra
  rw [hiff, hca, hcb]
  unfold contOrder
  exact (Rat.cast_le (K := ℝ)).symm

instance : IsTotal ContRow contOrder :=
  ⟨fun a b => le_total (b.stddev_sq * (b.total_comments : ℚ) ^ 2)
    (a.stddev_sq * (a.total_comments : ℚ) ^ 2)⟩

instance : IsTrans ContRow contOrder :=
  ⟨fun _ _ _ hab hbc => le_trans hbc hab⟩

/-- Embedding of `ContentAnalyzer.identify_controversial_posts`: `posts`
joined with the kept `comment_stats` rows, left-joined with `reply_depth`
(`COALESCE(..., 0)` for posts without replies), joined with the author,
ordered by `controversy_score` descending. -/
def identify_controversial_posts (snap : Snapshot) (min_comments : Nat)
    (min_stddev : ℚ) : List ContRow :=
  let cs := (comment_stats snap min_comments).filter
    (fun r => stddevKeep min_stddev r.stddev_sq)
  let rd := reply_depth snap
  let rows := snap.posts.flatMap (fun p =>
    (cs.filter (fun r => r.post_id = p.post_id)).flatMap (fun csr =>
      (leftJoin (rd.filter (fun r => r.post_id = p.post_id))).flatMap (fun rdr =>
        (snap.users.filter (fun u => u.user_id = p.user_id)).map (fun u =>
          ({ post_id := p.post_id, post_text := p.post_text,
             post_time := p.post_time, author := u.username,
             total_comments := csr.total_comments,
             unique_commenters := csr.unique_commenters,
             avg_comment_length := csr.avg_comment_length,
             stddev_sq := csr.stddev_sq.getD 0,
             reply_count := (rdr.map (·.reply_count)).getD 0,
             avg_reply_length := (rdr.map (·.avg_reply_length)).getD 0 } : ContRow)))))
  rows.insertionSort contOrder

/-- C5: every reported row of `identify_controversial_posts` has at least two
comments and its dispersion column is the sample standard deviation of the
post's comment-text lengths (sum of squared deviations over `N - 1`), which
coincides with the claim's function that is `0` at a single comment — a
single-comment post produces a `NULL` `STDDEV` and is never reported. -/
theorem controversial_stddev_sample (snap : Snapshot) (min_comments : Nat)
    (min_stddev : ℚ) (r : ContRow)
    (h : r ∈ identify_controversial_posts snap min_comments min_stddev) :
    2 ≤ (commentLengths snap r.post_id).length ∧
    r.stddev_sq = sampleVariance (commentLengths snap r.post_id) ∧
    ContRow.stddevR r = sampleStdDev (commentLengths snap r.post_id) := by
  simp only [identify_controversial_posts, List.mem_insertionSort,
    List.mem_flatMap, List.mem_map, List.mem_filter, decide_eq_true_eq] at h
  obtain ⟨p, hp, csr, ⟨⟨hcs, hkeep⟩, hcspid⟩, rdr, hrdr, u, hu, rfl⟩ := h
  simp only [comment_stats, List.mem_filter, List.mem_map] at hcs
  obtain ⟨⟨pid, hpid, rfl⟩, _⟩ := hcs
  dsimp only at hkeep hcspid
  obtain ⟨v, hv⟩ : ∃ v, (if (commentLengths snap pid).length ≤ 1 then none
      else some (sampleVariance (commentLengths snap pid))) = some v := by
    rcases hkeepcase : (if (commentLengths snap pid).length ≤ 1 then none
        else some (sampleVariance (commentLengths snap pid))) with _ | v
    · rw [hkeepcase] at hkeep
      simp [stddevKeep] at hkeep
    · exact ⟨v, rfl⟩
  have hlen : ¬ ((commentLengths snap pid).length ≤ 1) := by
    intro hle
    rw [if_pos hle] at hv
    cases hv
  rw [if_neg hlen] at hv
  have hveq : v = sampleVariance (commentLengths snap pid) := by
    simpa using hv.symm
  have hpostid : pid = p.post_id := hcspid
  subst hpostid
  dsimp only
  rw [if_neg hlen]
  refine ⟨by omega, ?_, ?_⟩
  · simp only [Option.getD_some, hveq]
  · simp only [ContRow.stddevR, Option.getD_some, hveq, sampleStdDev,
      if_neg hlen]

theorem getD_zero_mem {α : Type} {l : List α} (h : l ≠ []) (d : α) :
    l.getD 0 d ∈ l := by
  cases l with
  | nil => exact absurd rfl h
  | cons x xs => simp [List.getD]

/-- Concrete snapshot for C5: one post with two comments of text lengths 1
and 3, so the sample variance is `((1-2)² + (3-2)²) / (2-1) = 2`. -/
def varSnap : Snapshot :=
  { users := [⟨1, "x", "X", none, 0, true⟩]
    posts := [⟨1, 1, "p", none, 0, true⟩]
    comments := [⟨1, 1, 1, none, "a", 0⟩, ⟨2, 1, 1, none, "abc", 0⟩]
    likes := []
    follows := [] }

/-- Fallback controversial-post row. -/
def defaultContRow : ContRow := ⟨0, "", 0, "", 0, 0, 0, 0, 0, 0⟩

/-- The single row `identify_controversial_posts` reports on `varSnap`. -/
def varRow : ContRow :=
  (identify_controversial_posts varSnap 2 0).getD 0 defaultContRow

/-- Witness for C5: on lengths 1 and 3 the reported variance is the sample
variance 2 (so the stddev column is `√2`), with two comments in the group. -/
theorem controversial_stddev_sample_witness :
    (2 ≤ (commentLengths varSnap varRow.post_id).length ∧
     varRow.stddev_sq = sampleVariance (commentLengths varSnap varRow.post_id) ∧
     ContRow.stddevR varRow = sampleStdDev (commentLengths varSnap varRow.post_id)) ∧
    varRow.stddev_sq = 2 :=
  ⟨controversial_stddev_sample varSnap 2 0 varRow
      (getD_zero_mem (by with_unfolding_all decide) _),
    by with_unfolding_all decide⟩

end SMAP
